import Mathlib

/-!
Verification development for the FlowTune workflow execution engine
(packages/backend/src/core and packages/backend/src/nodes).

The TypeScript sources are shallowly embedded: JS runtime values become the
`Value` inductive, the mutable execution context becomes explicit state
passing, `async` functions become plain functions (execution is strictly
sequential), and thrown exceptions become `Except String`.  Wall-clock
fields (`executionTime`, `timestamp`) and log `data` payloads are dropped:
no theorem concerns them.  JS numbers are modelled as integers (no claim
involves fractional values or NaN arithmetic beyond "parses as a number").
-/

namespace FlowTune

/-- JS runtime values.  `vUndef` is `undefined`, `vNull` is `null`.
Arrays and plain objects are modelled structurally. -/
inductive Value where
  | vUndef : Value
  | vNull : Value
  | vBool (b : Bool) : Value
  | vNum (n : Int) : Value
  | vStr (s : String) : Value
  | vArr (elems : List Value) : Value
  | vObj (fields : List (String × Value)) : Value

/-- Association-list lookup (first binding wins), the model of `record[key]`
returning `undefined` as `none` when the key is absent. -/
def alGet {α : Type} (d : List (String × α)) (k : String) : Option α :=
  match d with
  | [] => none
  | p :: rest => if p.1 == k then some p.2 else alGet rest k

/-- The model of `record[key] = v`: replace the first binding of `k`
in place, or append a fresh binding (JS property-order semantics). -/
def alSet {α : Type} (d : List (String × α)) (k : String) (v : α) :
    List (String × α) :=
  match d with
  | [] => [(k, v)]
  | p :: rest => if p.1 == k then (k, v) :: rest else p :: alSet rest k v

/-- The model of `delete record[key]` (bindings are unique in every mapping
the engine builds, so removing all bindings of the key coincides). -/
def alDel {α : Type} (d : List (String × α)) (k : String) :
    List (String × α) :=
  match d with
  | [] => []
  | p :: rest => if p.1 == k then alDel rest k else p :: alDel rest k

/-- A JS object used as a string-keyed mapping of `Value`s
(the engine's `context.variables`). -/
abbrev Dict := List (String × Value)

/-- JS `ToBoolean` (truthiness). -/
def truthy : Value → Bool
  | .vUndef => false
  | .vNull => false
  | .vBool b => b
  | .vNum n => n != 0
  | .vStr s => s != ""
  | .vArr _ => true
  | .vObj _ => true

mutual

/-- JS `String(value)` coercion.  Objects print as `[object Object]`. -/
def toStr : Value → String
  | .vUndef => "undefined"
  | .vNull => "null"
  | .vBool b => if b then "true" else "false"
  | .vNum n => toString n
  | .vStr s => s
  | .vArr xs => toStrElems xs
  | .vObj _ => "[object Object]"
termination_by structural v => v

/-- JS array-to-string: elements joined with `,`, with `null`/`undefined`
elements printing as the empty string. -/
def toStrElems : List Value → String
  | [] => ""
  | [.vUndef] => ""
  | [.vNull] => ""
  | [x] => toStr x
  | .vUndef :: y :: rest => "," ++ toStrElems (y :: rest)
  | .vNull :: y :: rest => "," ++ toStrElems (y :: rest)
  | x :: y :: rest => toStr x ++ "," ++ toStrElems (y :: rest)
termination_by structural xs => xs

end

/-- Decimal-digit parse of a character list; `none` when empty or any
character is not a digit. -/
def parseDigits : List Char → Option Nat
  | [] => none
  | cs =>
    cs.foldl
      (fun acc c =>
        match acc with
        | none => none
        | some n => if c.isDigit then some (n * 10 + (c.toNat - 48)) else none)
      (some 0)

/-- JS whitespace for `Number(string)` trimming. -/
def isJsSpace (c : Char) : Bool :=
  c = ' ' || c = '\t' || c = '\n' || c = '\r'

/-- Strip leading and trailing whitespace from a character list. -/
def trimChars (cs : List Char) : List Char :=
  ((cs.dropWhile isJsSpace).reverse.dropWhile isJsSpace).reverse

/-- Integer parse of a JS numeric string: optional sign and decimal digits;
the empty (or all-whitespace) string parses as `0`.  `none` models NaN.
(Fractional/hex literals are outside the model.) -/
def parseJsInt (s : String) : Option Int :=
  match trimChars s.data with
  | [] => some 0
  | '-' :: rest => (parseDigits rest).map (fun n => -(n : Int))
  | '+' :: rest => (parseDigits rest).map (fun n => (n : Int))
  | cs => (parseDigits cs).map (fun n => (n : Int))

/-- JS `Number(value)` coercion; `none` models NaN.  Array/object coercion
via `ToPrimitive` is outside the model (`none`). -/
def toNum : Value → Option Int
  | .vUndef => none
  | .vNull => some 0
  | .vBool b => some (if b then 1 else 0)
  | .vNum n => some n
  | .vStr s => parseJsInt s
  | .vArr _ => none
  | .vObj _ => none

/-- JS strict equality `===`.  Two structurally equal arrays or objects are
distinct references in the engine (the compared values always originate from
different allocations), so `===` is `false` on them. -/
def strictEq : Value → Value → Bool
  | .vUndef, .vUndef => true
  | .vNull, .vNull => true
  | .vBool a, .vBool b => a == b
  | .vNum a, .vNum b => a == b
  | .vStr a, .vStr b => a == b
  | _, _ => false

/-- `InputValue` (core/types.ts): tagged union with tags
`'constant' | 'ref' | 'variable'` (Lean keywords force renamed constructors). -/
inductive InputValue where
  | constVal (content : Value)
  | refVal (content : Value)
  | varVal (content : Value)

/-- `inputValue.content`. -/
def InputValue.content : InputValue → Value
  | .constVal c => c
  | .refVal c => c
  | .varVal c => c

/-- The fields of `node.data` that the engine reads (core/types.ts
`NodeData`).  `outputsProps` is `outputs.properties` as key ↦ optional
`default`. -/
structure NodeData where
  title : Option String := none
  inputsValues : List (String × InputValue) := []
  batchFor : Option InputValue := none
  outputsProps : List (String × Option Value) := []
  simulateError : Bool := false
  actionId : Option String := none
  memoryType : Option String := none
  toolType : Option String := none

/-- `FlowNode` (core/types.ts): `{ id, type, data, blocks }`.
Node kinds are their runtime string discriminators. -/
inductive FlowNode where
  | node (id : String) (ntype : String) (data : NodeData) (blocks : List FlowNode)

def FlowNode.id : FlowNode → String
  | .node i _ _ _ => i

def FlowNode.ntype : FlowNode → String
  | .node _ t _ _ => t

def FlowNode.data : FlowNode → NodeData
  | .node _ _ d _ => d

def FlowNode.blocks : FlowNode → List FlowNode
  | .node _ _ _ b => b

/-- `FlowDocumentJSON`: nodes plus initial variables (edges/settings are
never read by the engine). -/
structure FlowDocument where
  nodes : List FlowNode
  vars : Dict := []

/-- One step of JS property access `current?.[key]`: `undefined` off
objects without the field, array index access, `undefined` on primitives
and on `null`/`undefined` bases. -/
def jsIndex (current : Value) (key : String) : Value :=
  match current with
  | .vObj fields => (alGet fields key).getD .vUndef
  | .vArr xs =>
    match parseDigits key.data with
    | some i => (xs.get? i).getD .vUndef
    | none => .vUndef
  | _ => (.vUndef)

/-- `'a.b.c'.split('.')` over the character list. -/
def splitDotAux : List Char → List Char → List String
  | [], acc => [String.mk acc.reverse]
  | c :: rest, acc =>
    if c = '.' then String.mk acc.reverse :: splitDotAux rest []
    else splitDotAux rest (c :: acc)

/-- `path.split('.')`. -/
def splitDot (s : String) : List String :=
  splitDotAux s.data []

/-- `BaseNodeExecutor.getNestedValue` / `FlowEngine.getNestedValue`:
`path.split('.').reduce((current, key) => current?.[key], obj)`. -/
def getNestedValue (obj : Value) (path : String) : Value :=
  (splitDot path).foldl jsIndex obj

/-- `BaseNodeExecutor.resolveInputValue` (core/node-executor.ts), identical
to `FlowEngine.resolveInputValue` of the monolithic engine revision.
JS property keys are string-coerced; `variables[nodeId] || {}` and
`variables[content] || content` are JS truthiness-based fallbacks. -/
def resolveInputValue (iv : InputValue) (vars : Dict) : Value :=
  match iv with
  | .constVal c => c
  | .refVal c =>
    match c with
    | .vArr (nodeId :: path :: _) =>
      let stored := (alGet vars (toStr nodeId)).getD .vUndef
      let nodeResult := if truthy stored then stored else .vObj []
      getNestedValue nodeResult (toStr path)
    | _ => c
  | .varVal c =>
    let stored := (alGet vars (toStr c)).getD .vUndef
    if truthy stored then stored else c

/-- `BaseNodeExecutor.evaluateCondition`: a node without a `condition`
input is unconditionally true; otherwise the resolved condition value is
coerced with `Boolean(...)`. -/
def evaluateCondition (node : FlowNode) (vars : Dict) : Bool :=
  match alGet node.data.inputsValues "condition" with
  | none => true
  | some cond => truthy (resolveInputValue cond vars)

/-- `NodeExecutionResult` (core/types.ts) minus the wall-clock fields. -/
structure NodeExecutionResult where
  success : Bool
  data : Value := .vUndef
  error : Option String := none
  nodeType : String

/-- `LoopContext` (core/types.ts).  Its `variables` snapshot field is
`savedVars` (`variables` is reserved in Lean). -/
structure LoopContext where
  nodeId : String
  items : List Value
  currentIndex : Nat
  currentItem : Value
  savedVars : Dict

/-- `ConditionContext` (core/types.ts); declared by the engine but never
pushed or read anywhere in the source. -/
structure ConditionContext where
  nodeId : String
  conditionResult : Bool
  branchTaken : String

/-- `ExecutionLog` entry: level and message (the freeform `data` payload
and timestamp carry no claim-relevant information and are dropped). -/
structure LogEntry where
  level : String
  message : String

/-- `FlowExecutionContext` (core/types.ts): the per-run mutable state.
`executionId`/`flowId` are a run-constant UUID and are omitted. -/
structure Ctx where
  vars : Dict := []
  nodeResults : List (String × NodeExecutionResult) := []
  currentNode : Option String := none
  status : String := "running"
  loopStack : List LoopContext := []
  conditionStack : List ConditionContext := []

/-- `logs.push({ level, message })`. -/
def pushLog (logs : List LogEntry) (level message : String) : List LogEntry :=
  logs ++ [⟨level, message⟩]

/-- `context.nodeResults.set(id, r)` (JS `Map.set`: replace or append). -/
def setResult (ctx : Ctx) (id : String) (r : NodeExecutionResult) : Ctx :=
  { ctx with nodeResults := alSet ctx.nodeResults id r }

/- ===== SwitchNodeExecutor (nodes/switch-node.ts) ===== -/

/-- The `x?.content !== undefined` guard used by `getCaseValue`. -/
def definedContent (o : Option InputValue) : Option Value :=
  match o with
  | none => none
  | some iv =>
    match iv.content with
    | .vUndef => none
    | c => some c

/-- `SwitchNodeExecutor.getCaseValue`: `inputsValues.value.content` when
defined, else the legacy `inputsValues.condition.content`, else
`caseNode.data?.title || null`. -/
def getCaseValue (caseNode : FlowNode) : Value :=
  match definedContent (alGet caseNode.data.inputsValues "value") with
  | some c => c
  | none =>
    match definedContent (alGet caseNode.data.inputsValues "condition") with
    | some c => c
    | none =>
      match caseNode.data.title with
      | some t => if t != "" then .vStr t else .vNull
      | none => .vNull

/-- JS `===` on two `Number(...)` results; `NaN === NaN` is false, so a
`none` on either side yields false. -/
def jsNumEq : Option Int → Option Int → Bool
  | some a, some b => a == b
  | _, _ => false

/-- `SwitchNodeExecutor.matchCase`: strict equality, else string-coercion
equality, else numeric equality guarded by `!isNaN(Number(expressionValue))`. -/
def matchCase (expressionValue caseValue : Value) : Bool :=
  if strictEq expressionValue caseValue then true
  else if toStr expressionValue == toStr caseValue then true
  else if jsNumEq (toNum expressionValue) (toNum caseValue)
            && (toNum expressionValue).isSome then true
  else false

/-- The first `for (const caseNode of node.blocks)` loop of
`SwitchNodeExecutor.findMatchingCase`: first `case`-typed child whose
declared value matches. -/
def findCaseLoop (blocks : List FlowNode) (expressionValue : Value) :
    Option FlowNode :=
  match blocks with
  | [] => none
  | b :: rest =>
    if b.ntype == "case" && matchCase expressionValue (getCaseValue b) then some b
    else findCaseLoop rest expressionValue

/-- `SwitchNodeExecutor.findMatchingCase`: the matched case child (if any)
and the reported branch label (`String(caseValue)`, or `'default'`). -/
def findMatchingCase (node : FlowNode) (expressionValue : Value) :
    Option FlowNode × Option String :=
  if node.blocks.isEmpty then (none, none)
  else
    match findCaseLoop node.blocks expressionValue with
    | some b => (some b, some (toStr (getCaseValue b)))
    | none =>
      match node.blocks.find? (fun blk => blk.ntype == "caseDefault") with
      | some d => (some d, some "default")
      | none => (none, none)

mutual

/-- `JSON.stringify` (restricted model: strings are quoted without escape
processing; `undefined` stringifies as the replacement text `undefined`). -/
def jsonStringify : Value → String
  | .vUndef => "undefined"
  | .vNull => "null"
  | .vBool b => if b then "true" else "false"
  | .vNum n => toString n
  | .vStr s => "\"" ++ s ++ "\""
  | .vArr xs => "[" ++ jsonStringifyElems xs ++ "]"
  | .vObj fields => "\x7b" ++ jsonStringifyFields fields ++ "\x7d"
termination_by structural v => v

/-- Array elements of `JSON.stringify`, comma-separated. -/
def jsonStringifyElems : List Value → String
  | [] => ""
  | [x] => jsonStringify x
  | x :: y :: rest => jsonStringify x ++ "," ++ jsonStringifyElems (y :: rest)
termination_by structural xs => xs

/-- Object fields of `JSON.stringify`, comma-separated. -/
def jsonStringifyFields : List (String × Value) → String
  | [] => ""
  | [(k, v)] => "\"" ++ k ++ "\":" ++ jsonStringify v
  | (k, v) :: p :: rest =>
    "\"" ++ k ++ "\":" ++ jsonStringify v ++ "," ++ jsonStringifyFields (p :: rest)
termination_by structural fields => fields

end

/-- A word character for the regex `\b` boundary in `\$key\b`. -/
def isWordChar (c : Char) : Bool :=
  c.isAlphanum || c = '_'

/-- Whether the boundary after `$key` holds: end of input or a non-word
character. -/
def atWordBoundary : List Char → Bool
  | [] => true
  | c :: _ => !isWordChar c

/-- One global-regex replacement pass for
`new RegExp('\\$\\{key\\}|\\$key\\b', 'g')`, scanning left to right.  The
first `Nat` is fuel (always instantiated with the input length; every step
consumes at least one character). -/
def replaceVarAux (key json : List Char) : Nat → List Char → List Char
  | 0, cs => cs
  | Nat.succ fuel, [] => (fun _ => []) fuel
  | Nat.succ fuel, '$' :: rest =>
    if ('\x7b' :: key ++ ['\x7d']).isPrefixOf rest then
      json ++ replaceVarAux key json fuel (rest.drop (key.length + 2))
    else if key.isPrefixOf rest && atWordBoundary (rest.drop key.length) then
      json ++ replaceVarAux key json fuel (rest.drop key.length)
    else
      '$' :: replaceVarAux key json fuel rest
  | Nat.succ fuel, c :: rest => c :: replaceVarAux key json fuel rest

/-- `expr.replace(new RegExp('\\$\\{key\\}|\\$key\\b', 'g'), json)`. -/
def replaceVar (s : String) (key : String) (json : String) : String :=
  String.mk (replaceVarAux key.data json.data s.data.length s.data)

/-- A restricted `JSON.parse` for the literal-parse fallback of
`evaluateExpression`: `null`, booleans, integers, and simple quoted strings
(array/object/fractional literals are outside the model and fail). -/
def jsonParseLite (s : String) : Option Value :=
  match trimChars s.data with
  | [] => none
  | cs =>
    if cs = "null".data then some .vNull
    else if cs = "true".data then some (.vBool true)
    else if cs = "false".data then some (.vBool false)
    else
      match cs with
      | '"' :: rest =>
        match rest.reverse with
        | '"' :: mid => if ('"' ∈ mid) then none else some (.vStr (String.mk mid.reverse))
        | _ => none
      | '-' :: rest => (parseDigits rest).map (fun n => .vNum (-(n : Int)))
      | _ => (parseDigits cs).map (fun n => .vNum (n : Int))

/-- `SwitchNodeExecutor.evaluateExpression`: substitute every variable as
its JSON literal, return the variable's raw value when the result is still
a whole `$`-brace reference, else parse the result as a literal, falling
back to the raw string. -/
def evaluateExpression (expression : String) (vars : Dict) : Value :=
  let evaluated :=
    vars.foldl (fun acc p => replaceVar acc p.1 (jsonStringify p.2)) expression
  let cs := evaluated.data
  if cs.take 2 = ['$', '\x7b'] && cs.getLast? = some '\x7d' then
    let varName := String.mk ((cs.drop 2).dropLast)
    (alGet vars varName).getD .vUndef
  else
    match jsonParseLite evaluated with
    | some v => v
    | none => .vStr evaluated

/-- `switchConfig.expression?.content || ''` of
`SwitchNodeExecutor.execute` (string-coerced: the engine only ever passes
string expressions to `String.prototype.replace`). -/
def switchExpressionText (node : FlowNode) : String :=
  let v := ((alGet node.data.inputsValues "expression").map
    InputValue.content).getD .vUndef
  if truthy v then toStr v else ""

/-- `SwitchNodeExecutor.executeCaseBranch` (a simulation in the source: it
returns mock per-child records and does not dispatch into the engine). -/
def executeCaseBranch (caseNode : FlowNode) : Value :=
  if caseNode.blocks.isEmpty then
    .vObj [("message", .vStr "case分支执行完成"), ("caseType", .vStr caseNode.ntype)]
  else
    .vObj [("caseResults", .vArr (caseNode.blocks.map (fun c =>
      .vObj [("nodeId", .vStr c.id), ("type", .vStr c.ntype),
             ("executed", .vBool true)])))]

/-- `SwitchNodeExecutor.execute`.  Nothing in the body can throw, so the
`catch` arm of the source is unreachable and not modelled. -/
def switchExecute (node : FlowNode) (ctx : Ctx) (logs : List LogEntry) :
    Except String NodeExecutionResult × Ctx × List LogEntry :=
  let expression := switchExpressionText node
  let logs := pushLog logs "info" "执行Switch节点"
  let expressionValue := evaluateExpression expression ctx.vars
  let logs := pushLog logs "info" ("Switch表达式计算结果: " ++ toStr expressionValue)
  let (matchedCase, executedBranch) := findMatchingCase node expressionValue
  let (result, logs) :=
    match matchedCase with
    | some mc =>
      (executeCaseBranch mc,
       pushLog logs "info"
         ("执行匹配的分支: " ++ ((executedBranch).getD "null")))
    | none =>
      (.vObj [("message", .vStr "没有匹配的分支"), ("value", expressionValue)],
       pushLog logs "warn" "没有找到匹配的分支")
  let executionResult : NodeExecutionResult :=
    { success := true
      data := .vObj [("expressionValue", expressionValue),
                     ("executedBranch", (executedBranch.map Value.vStr).getD .vNull),
                     ("matchedCaseId", ((matchedCase.map (fun m => Value.vStr m.id)).getD .vUndef)),
                     ("result", result)]
      nodeType := "switch" }
  let ctx := setResult ctx node.id executionResult
  let logs := pushLog logs "info" "Switch节点执行完成"
  (.ok executionResult, ctx, logs)

/- ===== NodeRelationshipManager.getExecutionOrder
        (core/node-relationships.ts) ===== -/

/-- `addTryCatchExecutionOrder`: the `tryBlock` first (when present), then
every `catchBlock` in authored order. -/
def addTryCatchExecutionOrder (node : FlowNode) : List FlowNode :=
  (match node.blocks.find? (fun b => b.ntype == "tryBlock") with
   | some t => [t]
   | none => []) ++ node.blocks.filter (fun b => b.ntype == "catchBlock")

/-- `addAgentExecutionOrder`: the first `agentLLM`, then the first
`agentMemory`, then the first `agentTools` child, skipping absent kinds. -/
def addAgentExecutionOrder (node : FlowNode) : List FlowNode :=
  (match node.blocks.find? (fun b => b.ntype == "agentLLM") with
   | some b => [b]
   | none => []) ++
  (match node.blocks.find? (fun b => b.ntype == "agentMemory") with
   | some b => [b]
   | none => []) ++
  (match node.blocks.find? (fun b => b.ntype == "agentTools") with
   | some b => [b]
   | none => [])

/-- `NodeRelationshipManager.getExecutionOrder`. -/
def getExecutionOrder (node : FlowNode) : List FlowNode :=
  if node.ntype == "switch" then node.blocks
  else if node.ntype == "if" then node.blocks
  else if node.ntype == "tryCatch" then addTryCatchExecutionOrder node
  else if node.ntype == "agent" then addAgentExecutionOrder node
  else node.blocks

/- ===== The registered node executors (packages/backend/src/nodes)
        used by the registry-based engine revision ===== -/

/-- JS `x || d`. -/
def orElseJs (v d : Value) : Value :=
  if truthy v then v else d

/-- Read a resolved parameter record, absent keys as `undefined`. -/
def getParam (params : List (String × Value)) (k : String) : Value :=
  (alGet params k).getD (.vUndef)

/-- Read `node.data.inputsValues[k]?.content`, absent as `undefined`. -/
def rawContent (node : FlowNode) (k : String) : Value :=
  ((alGet node.data.inputsValues k).map InputValue.content).getD (.vUndef)

/-- The result/state/log triple every executor's `execute` produces;
`Except.error` models an exception escaping to the engine. -/
abbrev ExecOut := Except String NodeExecutionResult × Ctx × List LogEntry

/-- An executor's `execute` method. -/
abbrev ExecutorFn := FlowNode → Ctx → List LogEntry → ExecOut

/-- A placeholder for the run's random UUID (`crypto.randomUUID()`),
which no claim concerns. -/
def executionIdText : String := "executionId"

/-- The `Object.entries(properties)` seeding loop of
`StartNodeExecutor.execute`: each output property with a `default` is
written into the variables. -/
def seedOutputDefaults (props : List (String × Option Value)) (vars : Dict) :
    Dict :=
  props.foldl
    (fun vs p => match p.2 with
      | some d => alSet vs p.1 d
      | none => vs)
    vars

/-- `StartNodeExecutor.execute` (nodes/start-node.ts): seeds every
output-schema property that has a default into the shared variables. -/
def startExecute : ExecutorFn := fun node ctx logs =>
  let logs := pushLog logs "info" "执行起始节点"
  let vars := seedOutputDefaults node.data.outputsProps ctx.vars
  let ctx := { ctx with vars := vars }
  let r : NodeExecutionResult :=
    { success := true
      data := .vObj [("success", .vBool true), ("message", .vStr "流程开始"),
                     ("variables", .vObj ctx.vars)]
      nodeType := "start" }
  (.ok r, ctx, logs)

/-- `EndNodeExecutor.execute` (nodes/end-node.ts): collects
`variables[key] || prop.default` per output property; writes nothing. -/
def endExecute : ExecutorFn := fun node ctx logs =>
  let logs := pushLog logs "info" "执行结束节点"
  let outputs := node.data.outputsProps.map
    (fun p => (p.1, orElseJs ((alGet ctx.vars p.1).getD .vUndef)
                             (p.2.getD .vUndef)))
  let r : NodeExecutionResult :=
    { success := true
      data := .vObj [("success", .vBool true), ("message", .vStr "流程结束"),
                     ("outputs", .vObj outputs),
                     ("finalVariables", .vObj ctx.vars)]
      nodeType := "end" }
  (.ok r, ctx, logs)

/-- `LLMNodeExecutor.execute` (nodes/llm-node.ts): resolves every input,
fabricates a reply string, and writes it to `variables.llm_result`. -/
def llmExecute : ExecutorFn := fun node ctx logs =>
  let logs := pushLog logs "info" "执行LLM节点"
  let params := node.data.inputsValues.map
    (fun p => (p.1, resolveInputValue p.2 ctx.vars))
  let logs := pushLog logs "debug" "LLM参数"
  let prompt := orElseJs (getParam params "prompt") (.vStr "")
  let modelType := orElseJs (getParam params "modelType") (.vStr "gpt-3.5-turbo")
  let result := "LLM回复 (" ++ toStr modelType ++ "): 基于提示 \"" ++
    toStr prompt ++ "\" 生成的回复"
  let ctx := { ctx with vars := alSet ctx.vars "llm_result" (.vStr result) }
  let r : NodeExecutionResult :=
    { success := true
      data := .vObj [("success", .vBool true), ("result", .vStr result),
                     ("parameters", .vObj params), ("model", modelType)]
      nodeType := "llm" }
  (.ok r, ctx, logs)

/-- `ActionNodeExecutor.execute` (nodes/action-node.ts): resolves inputs
and returns a mock action result; writes nothing. -/
def actionExecute : ExecutorFn := fun node ctx logs =>
  let logs := pushLog logs "info" "执行Action节点"
  let params := node.data.inputsValues.map
    (fun p => (p.1, resolveInputValue p.2 ctx.vars))
  let logs := pushLog logs "debug" "Action参数"
  let r : NodeExecutionResult :=
    { success := true
      data := .vObj [("success", .vBool true),
                     ("message", .vStr "Action节点执行完成"),
                     ("data", .vObj [("result", .vStr "action_result")]),
                     ("parameters", .vObj params)]
      nodeType := "action" }
  (.ok r, ctx, logs)

/-- One pass of the per-item `for` loop of `LoopNodeExecutor.execute`:
writes `__loop_index` and `__loop_item` and logs the iteration. -/
def loopIterStep (total : Nat) (st : Ctx × List LogEntry × Nat)
    (item : Value) : Ctx × List LogEntry × Nat :=
  let (c, lgs, i) := st
  let c := { c with vars := alSet (alSet c.vars "__loop_index"
                                    (.vNum (Int.ofNat i)))
                                  "__loop_item" item }
  let lgs := pushLog lgs "debug"
    ("Loop迭代 " ++ toString (i + 1) ++ "/" ++ toString total)
  (c, lgs, i + 1)

/-- `LoopNodeExecutor.execute` (nodes/loop-node.ts).  The module revision
does not run the loop body itself ("执行循环体需要外部处理"): it only
records per-item state.  Missing or non-array `batchFor` throws before the
`LoopContext` is pushed; the `finally` pops it and deletes both reserved
variables. -/
def loopExecute : ExecutorFn := fun node ctx logs =>
  let logs := pushLog logs "info" "执行Loop节点"
  match node.data.batchFor with
  | none => (.error "Loop节点缺少batchFor配置", ctx, logs)
  | some bf =>
    match resolveInputValue bf ctx.vars with
    | .vArr items =>
      let lc : LoopContext :=
        { nodeId := node.id, items := items, currentIndex := 0,
          currentItem := .vNull, savedVars := ctx.vars }
      let ctx := { ctx with loopStack := lc :: ctx.loopStack }
      let total := items.length
      let (ctx, logs, _) := items.foldl (loopIterStep total) (ctx, logs, 0)
      let ctx := { ctx with
        loopStack := ctx.loopStack.tail
        vars := alDel (alDel ctx.vars "__loop_index") "__loop_item" }
      let results := (List.range total).map (fun i =>
        Value.vObj [("index", .vNum (Int.ofNat i)),
                    ("item", (items.get? i).getD .vUndef)])
      let r : NodeExecutionResult :=
        { success := true
          data := .vObj [("success", .vBool true),
                         ("iterations", .vNum (Int.ofNat total)),
                         ("totalItems", .vNum (Int.ofNat total)),
                         ("results", .vArr results)]
          nodeType := "loop" }
      (.ok r, ctx, logs)
    | _ => (.error "Loop节点的batchFor必须是数组", ctx, logs)

/-- `IfNodeExecutor.execute` (nodes/if-node.ts): evaluates the condition
and reports the branch; child execution is left to the engine walk. -/
def ifExecute : ExecutorFn := fun node ctx logs =>
  let logs := pushLog logs "info" "执行If节点"
  let condition := evaluateCondition node ctx.vars
  let logs := pushLog logs "debug"
    ("If条件结果: " ++ (if condition then "true" else "false"))
  let trueBranch := node.blocks.find? (fun b => b.data.title == some "true")
  let falseBranch := node.blocks.find? (fun b => b.data.title == some "false")
  let (branch, logs) :=
    if condition && trueBranch.isSome then
      ("true", pushLog logs "info" "执行true分支")
    else if !condition && falseBranch.isSome then
      ("false", pushLog logs "info" "执行false分支")
    else ("none", logs)
  let r : NodeExecutionResult :=
    { success := true
      data := .vObj [("success", .vBool true), ("condition", .vBool condition),
                     ("branch", .vStr branch)]
      nodeType := "if" }
  (.ok r, ctx, logs)

/-- `CaseNodeExecutor.execute` (nodes/case-node.ts): a marker node; records
its own result. -/
def caseExecute : ExecutorFn := fun node ctx logs =>
  let logs := pushLog logs "info" "执行Case节点"
  let r : NodeExecutionResult :=
    { success := true
      data := .vObj [("caseValue", rawContent node "value"),
                     ("condition", rawContent node "condition"),
                     ("matched", .vBool true), ("executed", .vBool true)]
      nodeType := "case" }
  (.ok r, setResult ctx node.id r, logs)

/-- `CaseDefaultNodeExecutor.execute` (nodes/case-node.ts). -/
def caseDefaultExecute : ExecutorFn := fun node ctx logs =>
  let logs := pushLog logs "info" "执行CaseDefault节点"
  let r : NodeExecutionResult :=
    { success := true
      data := .vObj [("isDefault", .vBool true), ("executed", .vBool true)]
      nodeType := "caseDefault" }
  (.ok r, setResult ctx node.id r, logs)

/-- The mock per-child record lists built by the block-marker executors. -/
def childRecords (blocks : List FlowNode) : Value :=
  .vArr (blocks.map (fun c =>
    .vObj [("nodeId", .vStr c.id), ("type", .vStr c.ntype),
           ("executed", .vBool true)]))

/-- `IfBlockNodeExecutor.execute` (nodes/block-nodes.ts). -/
def ifBlockExecute : ExecutorFn := fun node ctx logs =>
  let blockTitle := (node.data.title.map (fun t => if t != "" then t else "ifBlock")).getD "ifBlock"
  let logs := pushLog logs "info" ("执行IfBlock节点: " ++ blockTitle)
  let r : NodeExecutionResult :=
    { success := true
      data := .vObj [("blockType", .vStr blockTitle),
                     ("isTrue", .vBool (blockTitle == "true")),
                     ("isFalse", .vBool (blockTitle == "false")),
                     ("childResults", childRecords node.blocks),
                     ("executed", .vBool true)]
      nodeType := "ifBlock" }
  (.ok r, setResult ctx node.id r, logs)

/-- `TryBlockNodeExecutor.execute` (nodes/block-nodes.ts). -/
def tryBlockExecute : ExecutorFn := fun node ctx logs =>
  let logs := pushLog logs "info" "执行TryBlock节点"
  let r : NodeExecutionResult :=
    { success := true
      data := .vObj [("blockType", .vStr "try"),
                     ("childResults", childRecords node.blocks),
                     ("executed", .vBool true)]
      nodeType := "tryBlock" }
  (.ok r, setResult ctx node.id r, logs)

/-- `CatchBlockNodeExecutor.execute` (nodes/block-nodes.ts). -/
def catchBlockExecute : ExecutorFn := fun node ctx logs =>
  let logs := pushLog logs "info" "执行CatchBlock节点"
  let r : NodeExecutionResult :=
    { success := true
      data := .vObj [("blockType", .vStr "catch"),
                     ("childResults", childRecords node.blocks),
                     ("errorHandled", .vBool true), ("executed", .vBool true)]
      nodeType := "catchBlock" }
  (.ok r, setResult ctx node.id r, logs)

/-- `BreakLoopNodeExecutor.execute` (nodes/block-nodes.ts): sets the
reserved flag `__break_loop__` in the shared variable mapping. -/
def breakLoopExecute : ExecutorFn := fun node ctx logs =>
  let logs := pushLog logs "info" "执行BreakLoop节点"
  let ctx := { ctx with vars := alSet ctx.vars "__break_loop__" (.vBool true) }
  let r : NodeExecutionResult :=
    { success := true
      data := .vObj [("action", .vStr "break"), ("executed", .vBool true)]
      nodeType := "breakLoop" }
  (.ok r, setResult ctx node.id r, logs)

/-- `MemoryNodeExecutor.execute` (nodes/memory-node.ts). -/
def memoryExecute : ExecutorFn := fun node ctx logs =>
  let operation := orElseJs (rawContent node "operation") (.vStr "store")
  let memoryType := orElseJs (rawContent node "memoryType") (.vStr "conversation")
  let logs := pushLog logs "info" ("执行Memory节点: " ++ toStr operation)
  let r : NodeExecutionResult :=
    { success := true
      data := .vObj [("operation", operation), ("memoryType", memoryType)]
      nodeType := "memory" }
  (.ok r, setResult ctx node.id r, logs)

/-- `ToolNodeExecutor.execute` (nodes/tool-node.ts). -/
def toolExecute : ExecutorFn := fun node ctx logs =>
  let toolName := (node.data.title.map (fun t => if t != "" then t else "tool_" ++ node.id)).getD ("tool_" ++ node.id)
  let toolType := orElseJs (rawContent node "toolType") (.vStr "generic")
  let params := orElseJs (rawContent node "parameters") (.vObj [])
  let logs := pushLog logs "info" ("执行Tool节点: " ++ toolName)
  let r : NodeExecutionResult :=
    { success := true
      data := .vObj [("toolName", .vStr toolName), ("toolType", toolType),
                     ("parameters", params),
                     ("result", .vStr (toolName ++ " 执行完成"))]
      nodeType := "tool" }
  (.ok r, setResult ctx node.id r, logs)

/-- The `__agent__` marker object `{ id, phase }`. -/
def agentMarker (id phase : String) : Value :=
  .vObj [("id", .vStr id), ("phase", .vStr phase)]

/-- `AgentNodeExecutor.executeAgentLLM` (nodes/agent-node.ts, a
simulation): one mock record per `llm`-typed child. -/
def agentLLMSim (llmNode : FlowNode) (marker : Value) : Value :=
  .vObj [("type", .vStr "agentLLM"),
         ("llmResults", .vArr ((llmNode.blocks.filter
            (fun c => c.ntype == "llm")).map (fun c =>
              .vObj [("nodeId", .vStr c.id), ("type", .vStr "llm"),
                     ("response", .vStr "Agent LLM回复 (基于Agent上下文)"),
                     ("executed", .vBool true)]))),
         ("agentContext", marker)]

/-- `AgentNodeExecutor.executeAgentMemory` (simulation). -/
def agentMemorySim (marker : Value) : Value :=
  .vObj [("type", .vStr "agentMemory"),
         ("memories", .vArr [.vStr "Agent记忆1", .vStr "Agent记忆2"]),
         ("agentContext", marker)]

/-- `AgentNodeExecutor.executeAgentTools` (simulation). -/
def agentToolsSim (toolsNode : FlowNode) (marker : Value) : Value :=
  .vObj [("type", .vStr "agentTools"),
         ("toolResults", .vArr ((toolsNode.blocks.filter
            (fun c => c.ntype == "tool")).map (fun c =>
              .vObj [("nodeId", .vStr c.id),
                     ("toolName", .vStr ((c.data.title.map (fun t =>
                        if t != "" then t else "unnamed_tool")).getD "unnamed_tool")),
                     ("result", .vStr "工具执行结果 (Agent环境)"),
                     ("executed", .vBool true)]))),
         ("agentContext", marker)]

/-- `AgentNodeExecutor.executeAgentComponent`. -/
def executeAgentComponent (c : FlowNode) (marker : Value) : Value :=
  if c.ntype == "agentLLM" then agentLLMSim c marker
  else if c.ntype == "agentMemory" then agentMemorySim marker
  else if c.ntype == "agentTools" then agentToolsSim c marker
  else .vObj [("type", .vStr c.ntype), ("executed", .vBool true)]

/-- `AgentNodeExecutor.generateAgentResponse`. -/
def generateAgentResponse (llm memory tools : Option Value) (vars : Dict) :
    String :=
  let userInput := orElseJs ((alGet vars "userInput").getD .vUndef) (.vStr "用户输入")
  "基于用户输入\"" ++ toStr userInput ++ "\"，Agent已处理完成。" ++
  (if llm.isSome then " LLM组件已响应。" else "") ++
  (if memory.isSome then " 记忆组件已更新。" else "") ++
  (if tools.isSome then " 工具组件已执行。" else "")

/-- One pass of the `for (const childNode of executionOrder)` loop in
`AgentNodeExecutor.execute`: log the component, run it with the phase
marker, store its result under its kind. -/
def agentComponentStep (nodeId : String)
    (st : Option Value × Option Value × Option Value × List LogEntry)
    (c : FlowNode) :
    Option Value × Option Value × Option Value × List LogEntry :=
  let (llm, memory, tools, lgs) := st
  let lgs := pushLog lgs "info" ("Agent执行组件: " ++ c.ntype)
  let componentResult := executeAgentComponent c (agentMarker nodeId c.ntype)
  if c.ntype == "agentLLM" then (some componentResult, memory, tools, lgs)
  else if c.ntype == "agentMemory" then (llm, some componentResult, tools, lgs)
  else if c.ntype == "agentTools" then (llm, memory, some componentResult, lgs)
  else (llm, memory, tools, lgs)

/-- `AgentNodeExecutor.execute` (nodes/agent-node.ts): iterates the
canonical execution order from `getExecutionOrder`, tagging each component
with its phase via a transient context copy (`agentContext` spreads
`context.variables`; the copy never escapes the node). -/
def agentExecute : ExecutorFn := fun node ctx logs =>
  let logs := pushLog logs "info" "执行Agent节点"
  let executionOrder := getExecutionOrder node
  let (llm, memory, tools, logs) :=
    executionOrder.foldl (agentComponentStep node.id) (none, none, none, logs)
  let lastPhase := ((executionOrder.getLast?).map FlowNode.ntype).getD "initializing"
  let finalResult : Value :=
    .vObj [("type", .vStr "agent"),
           ("components", .vObj [("llm", llm.getD .vNull),
                                 ("memory", memory.getD .vNull),
                                 ("tools", tools.getD .vNull)]),
           ("finalResponse", .vStr (generateAgentResponse llm memory tools ctx.vars)),
           ("agentContext", agentMarker node.id lastPhase)]
  let r : NodeExecutionResult :=
    { success := true, data := finalResult, nodeType := "agent" }
  let ctx := setResult ctx node.id r
  let logs := pushLog logs "info" "Agent节点执行完成"
  (.ok r, ctx, logs)

/-- `AgentLLMNodeExecutor.executeLLMChild` + `simulateLLMCall`
(nodes/tool-node.ts).  The fractional default temperature `0.5` is
modelled by its decimal string. -/
def agentLLMChild (child : FlowNode) : Value :=
  let modelType := orElseJs (rawContent child "modelType") (.vStr "gpt-3.5-turbo")
  let temperature := orElseJs (rawContent child "temperature") (.vStr "0.5")
  let systemPrompt := orElseJs (rawContent child "systemPrompt") (.vStr "")
  let prompt := orElseJs (rawContent child "prompt") (.vStr "")
  let response := "AgentLLM模拟回复 (模型: " ++ toStr modelType ++ ", 温度: " ++
    toStr temperature ++ "): 基于系统提示 \"" ++ toStr systemPrompt ++
    "\" 和用户提示 \"" ++ toStr prompt ++ "\" 的智能回复"
  .vObj [("nodeId", .vStr child.id), ("type", .vStr "llm"),
         ("modelType", modelType), ("temperature", temperature),
         ("response", .vStr response), ("executed", .vBool true)]

/-- `AgentLLMNodeExecutor.execute` (nodes/tool-node.ts). -/
def agentLLMExecute : ExecutorFn := fun node ctx logs =>
  let logs := pushLog logs "info" "执行AgentLLM节点"
  let step := fun (st : List Value × List LogEntry) (c : FlowNode) =>
    if c.ntype == "llm" then
      (st.1 ++ [agentLLMChild c],
       pushLog st.2 "info" "AgentLLM中执行LLM子节点")
    else st
  let (results, logs) := node.blocks.foldl step ([], logs)
  let r : NodeExecutionResult :=
    { success := true
      data := .vObj [("type", .vStr "agentLLM"),
                     ("childResults", .vArr results),
                     ("agentLLMCompleted", .vBool true)]
      nodeType := "agentLLM" }
  let ctx := setResult ctx node.id r
  let logs := pushLog logs "info" "AgentLLM节点执行完成"
  (.ok r, ctx, logs)

/-- `AgentMemoryNodeExecutor.simulateMemoryOperation` (by
`memoryNode.data?.memoryType`, defaulting to `conversation`).  Fixed mock
payloads; `0.85` is modelled by its decimal string. -/
def simulateMemoryOperation (memoryNode : FlowNode) (vars : Dict) : Value :=
  let mt := (memoryNode.data.memoryType.map (fun t =>
    if t != "" then t else "conversation")).getD "conversation"
  if mt == "conversation" then
    .vObj [("type", .vStr "conversation"), ("action", .vStr "store"),
           ("data", .vObj [("userInput",
              orElseJs ((alGet vars "userInput").getD .vUndef) (.vStr "")),
             ("context", .vStr "Agent conversation memory")])]
  else if mt == "facts" then
    .vObj [("type", .vStr "facts"), ("action", .vStr "retrieve"),
           ("data", .vObj [("retrievedFacts",
              .vArr [.vStr "事实1", .vStr "事实2", .vStr "事实3"]),
             ("relevanceScore", .vStr "0.85"),
             ("context", .vStr "Agent facts memory")])]
  else if mt == "context" then
    .vObj [("type", .vStr "context"), ("action", .vStr "update"),
           ("data", .vObj [("contextWindow", .vArr (vars.map (fun p => Value.vStr p.1))),
             ("contextSize", .vNum (Int.ofNat (jsonStringify (.vObj vars)).length)),
             ("context", .vStr "Agent context memory")])]
  else
    .vObj [("type", .vStr "default"), ("action", .vStr "generic"),
           ("data", .vObj [("message", .vStr "默认记忆操作"),
             ("variables", .vArr (vars.map (fun p => Value.vStr p.1))),
             ("context", .vStr "Agent default memory")])]

/-- `AgentMemoryNodeExecutor.execute` (part of the nodes package): runs
each `memory` child's simulated operation and writes the aggregate into
the shared variable `__agentMemory__` (initialising it to `{}` first when
falsy, exactly as the source does). -/
def agentMemoryExecute : ExecutorFn := fun node ctx logs =>
  let logs := pushLog logs "info" "执行AgentMemory节点"
  let step := fun (st : List Value × List LogEntry) (c : FlowNode) =>
    if c.ntype == "memory" then
      (st.1 ++ [Value.vObj [("nodeId", .vStr c.id), ("type", .vStr "memory"),
                 ("operation", simulateMemoryOperation c ctx.vars),
                 ("executed", .vBool true)]],
       pushLog st.2 "info" "AgentMemory中执行Memory子节点")
    else st
  let (results, logs) := node.blocks.foldl step ([], logs)
  let vars :=
    if !truthy ((alGet ctx.vars "__agentMemory__").getD .vUndef) then
      alSet ctx.vars "__agentMemory__" (.vObj [])
    else ctx.vars
  let memoryData : Value :=
    .vObj [("sessionId", .vStr executionIdText), ("memories", .vArr results)]
  let vars := alSet vars "__agentMemory__" memoryData
  let ctx := { ctx with vars := vars }
  let r : NodeExecutionResult :=
    { success := true
      data := .vObj [("type", .vStr "agentMemory"), ("memoryData", memoryData),
                     ("childResults", .vArr results),
                     ("agentMemoryCompleted", .vBool true)]
      nodeType := "agentMemory" }
  let ctx := setResult ctx node.id r
  let logs := pushLog logs "info" "AgentMemory节点执行完成"
  (.ok r, ctx, logs)

/-- `AgentToolsNodeExecutor.simulateToolCall` (by `toolNode.data?.toolType`,
defaulting to `generic`).  Fixed mock payloads, condensed to their
distinguishing fields. -/
def simulateToolCall (toolName toolType : String) (vars : Dict) : Value :=
  if toolType == "search" then
    .vObj [("toolType", .vStr "search"), ("action", .vStr "search"),
           ("query", orElseJs ((alGet vars "userInput").getD .vUndef)
                              (.vStr "default query"))]
  else if toolType == "calculation" then
    .vObj [("toolType", .vStr "calculation"), ("action", .vStr "calculate"),
           ("expression", .vStr "2 + 2"), ("result", .vNum 4),
           ("message", .vStr "计算完成")]
  else if toolType == "api" then
    .vObj [("toolType", .vStr "api"), ("action", .vStr "api_call"),
           ("endpoint", .vStr "https://api.example.com/data"),
           ("method", .vStr "GET")]
  else if toolType == "database" then
    .vObj [("toolType", .vStr "database"), ("action", .vStr "query"),
           ("query", .vStr "SELECT * FROM users WHERE active = true")]
  else
    .vObj [("toolType", .vStr "generic"), ("action", .vStr "execute"),
           ("message", .vStr ("工具 " ++ toolName ++ " 执行完成")),
           ("context", .vArr (vars.map (fun p => Value.vStr p.1)))]

/-- `AgentToolsNodeExecutor.execute` (part of the nodes package): runs
each `tool` child's simulated call and writes the aggregate into the
shared variable `__agentTools__`. -/
def agentToolsExecute : ExecutorFn := fun node ctx logs =>
  let logs := pushLog logs "info" "执行AgentTools节点"
  let step := fun (st : List Value × List String × List LogEntry) (c : FlowNode) =>
    if c.ntype == "tool" then
      let toolName := (c.data.title.map (fun t =>
        if t != "" then t else "tool_" ++ c.id)).getD ("tool_" ++ c.id)
      let toolType := (c.data.toolType.map (fun t =>
        if t != "" then t else "generic")).getD "generic"
      let record : Value :=
        .vObj [("nodeId", .vStr c.id), ("type", .vStr "tool"),
               ("toolName", .vStr toolName), ("toolType", .vStr toolType),
               ("result", simulateToolCall toolName toolType ctx.vars),
               ("executed", .vBool true)]
      (st.1 ++ [record], st.2.1 ++ [toolName],
       pushLog st.2.2 "info" ("AgentTools中执行Tool子节点: " ++ toolName))
    else st
  let (results, availableTools, logs) := node.blocks.foldl step ([], [], logs)
  let vars :=
    if !truthy ((alGet ctx.vars "__agentTools__").getD .vUndef) then
      alSet ctx.vars "__agentTools__" (.vObj [])
    else ctx.vars
  let toolsData : Value :=
    .vObj [("availableTools", .vArr (availableTools.map Value.vStr)),
           ("toolResults", .vArr results)]
  let vars := alSet vars "__agentTools__" toolsData
  let ctx := { ctx with vars := vars }
  let r : NodeExecutionResult :=
    { success := true
      data := .vObj [("type", .vStr "agentTools"), ("toolsData", toolsData),
                     ("childResults", .vArr results),
                     ("agentToolsCompleted", .vBool true)]
      nodeType := "agentTools" }
  let ctx := setResult ctx node.id r
  let logs := pushLog logs "info" "AgentTools节点执行完成"
  (.ok r, ctx, logs)

/-- The mock catch-branch child records of
`TryCatchNodeExecutor.executeCatchBlock`. -/
def catchChildRecords (blocks : List FlowNode) : Value :=
  .vArr (blocks.map (fun c =>
    .vObj [("nodeId", .vStr c.id), ("type", .vStr c.ntype),
           ("executed", .vBool true), ("errorHandled", .vBool true)]))

/-- `TryCatchNodeExecutor.execute` (nodes/try-catch-node.ts).  The "try
branch" simulation throws at the first child flagged `simulateError`; only
the FIRST `catchBlock` child is considered, and no guard condition is ever
evaluated.  The transient `errorContext` copy (variables plus `__error__`)
is built for the catch simulation but never read by it, so it has no
observable effect.  Every failure is converted to a returned
failed result by the outer `catch`. -/
def tryCatchExecute : ExecutorFn := fun node ctx logs =>
  let logs := pushLog logs "info" "执行TryCatch节点"
  match node.blocks.find? (fun b => b.ntype == "tryBlock") with
  | none =>
    let msg := "TryCatch节点必须包含try分支"
    let logs := pushLog logs "error" ("TryCatch节点执行失败: " ++ msg)
    let r : NodeExecutionResult :=
      { success := false, error := some msg, nodeType := "tryCatch" }
    (.ok r, setResult ctx node.id r, logs)
  | some tb =>
    let logs := pushLog logs "info" "执行try分支"
    match tb.blocks.find? (fun c => c.data.simulateError) with
    | none =>
      let tryResult : Value :=
        if tb.blocks.isEmpty then .vObj [("message", .vStr "try分支执行完成")]
        else .vObj [("tryResults", childRecords tb.blocks)]
      let logs := pushLog logs "info" "try分支执行成功"
      let r : NodeExecutionResult :=
        { success := true
          data := .vObj [("result", tryResult),
                         ("executedBranch", .vStr "try"), ("error", .vNull)]
          nodeType := "tryCatch" }
      let ctx := setResult ctx node.id r
      let logs := pushLog logs "info" "TryCatch节点执行完成"
      (.ok r, ctx, logs)
    | some bad =>
      let errMsg := "模拟节点执行错误: " ++ bad.id
      let logs := pushLog logs "warn" ("try分支执行失败: " ++ errMsg)
      match node.blocks.find? (fun b => b.ntype == "catchBlock") with
      | some cb =>
        let logs := pushLog logs "info" "执行catch分支"
        let catchResult : Value :=
          if cb.blocks.isEmpty then
            .vObj [("message", .vStr "catch分支执行完成"),
                   ("errorHandled", .vBool true)]
          else
            .vObj [("catchResults", catchChildRecords cb.blocks),
                   ("errorHandled", .vBool true)]
        let logs := pushLog logs "info" "catch分支执行成功"
        let r : NodeExecutionResult :=
          { success := true
            data := .vObj [("result", catchResult),
                           ("executedBranch", .vStr "catch"),
                           ("error", .vObj [("message", .vStr errMsg),
                                            ("type", .vStr "Error")])]
            nodeType := "tryCatch" }
        let ctx := setResult ctx node.id r
        let logs := pushLog logs "info" "TryCatch节点执行完成"
        (.ok r, ctx, logs)
      | none =>
        let logs := pushLog logs "error" ("TryCatch节点执行失败: " ++ errMsg)
        let r : NodeExecutionResult :=
          { success := false, error := some errMsg, nodeType := "tryCatch" }
        (.ok r, setResult ctx node.id r, logs)

/-- The default node registry (nodes/index.ts
`NodeRegistryManager.registerDefaultNodes` +
`NodeRegistryManager.getExecutor`): kind string to executor. -/
def getExecutor (t : String) : Option ExecutorFn :=
  if t == "start" then some startExecute
  else if t == "end" then some endExecute
  else if t == "llm" then some llmExecute
  else if t == "action" then some actionExecute
  else if t == "agent" then some agentExecute
  else if t == "agentLLM" then some agentLLMExecute
  else if t == "agentMemory" then some agentMemoryExecute
  else if t == "agentTools" then some agentToolsExecute
  else if t == "memory" then some memoryExecute
  else if t == "tool" then some toolExecute
  else if t == "if" then some ifExecute
  else if t == "loop" then some loopExecute
  else if t == "switch" then some switchExecute
  else if t == "tryCatch" then some tryCatchExecute
  else if t == "case" then some caseExecute
  else if t == "caseDefault" then some caseDefaultExecute
  else if t == "ifBlock" then some ifBlockExecute
  else if t == "tryBlock" then some tryBlockExecute
  else if t == "catchBlock" then some catchBlockExecute
  else if t == "breakLoop" then some breakLoopExecute
  else none

/- ===== The registry-based engine revision (core/flow-engine.ts,
        second document) ===== -/

/-- The recursive `executeNode` as seen by an engine step: node, state,
logs in; result, state, logs out. -/
abbrev EngineExec := FlowNode → Ctx → List LogEntry →
  NodeExecutionResult × Ctx × List LogEntry

/-- A `for (const childNode of blocks) await executeNode(...)` walk,
threading the context and logs and dropping each child's result. -/
def execChildrenFold (exec : EngineExec) (blocks : List FlowNode)
    (st : Ctx × List LogEntry) : Ctx × List LogEntry :=
  blocks.foldl
    (fun st child =>
      let out := exec child st.1 st.2
      (out.2.1, out.2.2))
    st

/-- One visit of `FlowEngine.executeNode` (registry revision), with the
recursive call abstracted: registry dispatch, then the unconditional walk
of `node.blocks`; an executor exception or unsupported kind produces a
failed result for this node and skips its descendants. -/
def executeNodeStepV2 (exec : EngineExec) (node : FlowNode) (ctx : Ctx)
    (logs : List LogEntry) : NodeExecutionResult × Ctx × List LogEntry :=
  let ctx := { ctx with currentNode := some node.id }
  let logs := pushLog logs "info" ("执行节点: " ++ node.ntype)
  match getExecutor node.ntype with
  | none =>
    let msg := "不支持的节点类型: " ++ node.ntype
    let logs := pushLog logs "error" ("节点执行失败: " ++ msg)
    let r : NodeExecutionResult :=
      { success := false, error := some msg, nodeType := node.ntype }
    (r, setResult ctx node.id r, logs)
  | some ex =>
    match ex node ctx logs with
    | (.error msg, ctx, logs) =>
      let logs := pushLog logs "error" ("节点执行失败: " ++ msg)
      let r : NodeExecutionResult :=
        { success := false, error := some msg, nodeType := node.ntype }
      (r, setResult ctx node.id r, logs)
    | (.ok result, ctx, logs) =>
      let (ctx, logs) := execChildrenFold exec node.blocks (ctx, logs)
      (result, ctx, logs)

/-- `FlowEngine.executeNode` (registry revision), tied recursively.  The
`Nat` is recursion-depth fuel only: any value at least the document's
tree depth yields the source semantics (the engine itself has no such
bound; fuel exhaustion returns a failed result with the state untouched). -/
def executeNodeV2 : Nat → FlowNode → Ctx → List LogEntry →
    NodeExecutionResult × Ctx × List LogEntry
  | 0, node, ctx, logs =>
    ({ success := false, error := some "fuel", nodeType := node.ntype }, ctx, logs)
  | Nat.succ fuel, node, ctx, logs =>
    executeNodeStepV2 (executeNodeV2 fuel) node ctx logs

/-- `FlowEngine.findStartNodes`. -/
def findStartNodes (nodes : List FlowNode) : List FlowNode :=
  nodes.filter (fun n => n.ntype == "start")

/-- `FlowExecutionResult` minus executionId/time. -/
structure FlowExecutionResult where
  success : Bool
  results : List (String × NodeExecutionResult)
  finalVariables : Dict
  error : Option String := none
  logs : List LogEntry

/-- JS object spread `{...a, ...b}`. -/
def dictMerge (a b : Dict) : Dict :=
  b.foldl (fun acc p => alSet acc p.1 p.2) a

/-- `FlowEngine.executeFlow` (registry revision): seeds variables from the
document merged with the caller's input (input wins), executes every
top-level `start` node in order, and snapshots results, variables and
logs. -/
def executeFlowV2 (fuel : Nat) (doc : FlowDocument) (inputData : Dict) :
    FlowExecutionResult :=
  let ctx : Ctx := { vars := dictMerge doc.vars inputData }
  let logs := pushLog [] "info" "流程开始执行"
  let startNodes := findStartNodes doc.nodes
  if startNodes.isEmpty then
    let msg := "未找到起始节点 (start)"
    let logs := pushLog logs "error" msg
    { success := false, results := ctx.nodeResults,
      finalVariables := ctx.vars, error := some msg, logs := logs }
  else
    let logs := pushLog logs "info"
      ("找到 " ++ toString startNodes.length ++ " 个起始节点")
    let (ctx, logs) := execChildrenFold (executeNodeV2 fuel) startNodes (ctx, logs)
    let logs := pushLog logs "info" "流程执行完成"
    { success := true, results := ctx.nodeResults,
      finalVariables := ctx.vars, logs := logs }

/- ===== The monolithic engine revision (core/flow-engine.ts, first
        document): one class, node kinds dispatched by a `switch`, every
        handler inline.  `executeNode` catches everything, so it returns a
        result and never throws. ===== -/

/-- The type of the recursive `executeNode` as seen by the handlers. -/
abbrev ExecNode := FlowNode → Ctx → List LogEntry →
  NodeExecutionResult × Ctx × List LogEntry

mutual

/-- `FlowEngine.shouldBreakLoop`: a purely structural check — true iff the
subtree contains a `breakLoop`-typed node.  Its `result` parameter is
never inspected by the source and is omitted. -/
def shouldBreakLoop (n : FlowNode) : Bool :=
  match n with
  | .node _ t _ blocks => t == "breakLoop" || shouldBreakLoopList blocks
termination_by structural n

/-- `node.blocks.some(block => this.shouldBreakLoop(block, result))`. -/
def shouldBreakLoopList : List FlowNode → Bool
  | [] => false
  | b :: rest => shouldBreakLoop b || shouldBreakLoopList rest
termination_by structural bs => bs

end

/-- `FlowEngine.executeStartNode` (monolithic revision). -/
def executeStartNodeV1 (node : FlowNode) (ctx : Ctx) (logs : List LogEntry) :
    Value × Ctx × List LogEntry :=
  let logs := pushLog logs "info" "执行起始节点"
  let vars := node.data.outputsProps.foldl
    (fun vs p => match p.2 with
      | some d => alSet vs p.1 d
      | none => vs)
    ctx.vars
  let ctx := { ctx with vars := vars }
  (.vObj [("success", .vBool true), ("message", .vStr "流程开始"),
          ("variables", .vObj ctx.vars)], ctx, logs)

/-- `FlowEngine.executeEndNode` (monolithic revision). -/
def executeEndNodeV1 (node : FlowNode) (ctx : Ctx) (logs : List LogEntry) :
    Value × Ctx × List LogEntry :=
  let logs := pushLog logs "info" "执行结束节点"
  let outputs := node.data.outputsProps.map
    (fun p => (p.1, orElseJs ((alGet ctx.vars p.1).getD .vUndef)
                             (p.2.getD .vUndef)))
  (.vObj [("success", .vBool true), ("message", .vStr "流程结束"),
          ("outputs", .vObj outputs), ("finalVariables", .vObj ctx.vars)],
   ctx, logs)

/-- `FlowEngine.executeLLMNode` (monolithic revision). -/
def executeLLMNodeV1 (node : FlowNode) (ctx : Ctx) (logs : List LogEntry) :
    Value × Ctx × List LogEntry :=
  let logs := pushLog logs "info" "执行LLM节点"
  let params := node.data.inputsValues.map
    (fun p => (p.1, resolveInputValue p.2 ctx.vars))
  let logs := pushLog logs "debug" "LLM参数"
  let prompt := orElseJs (getParam params "prompt") (.vStr "")
  let modelType := orElseJs (getParam params "modelType") (.vStr "gpt-3.5-turbo")
  let result := "LLM回复 (" ++ toStr modelType ++ "): 基于提示 \"" ++
    toStr prompt ++ "\" 生成的回复"
  let ctx := { ctx with vars := alSet ctx.vars "llm_result" (.vStr result) }
  (.vObj [("success", .vBool true), ("result", .vStr result),
          ("parameters", .vObj params), ("model", modelType)], ctx, logs)

/-- `FlowEngine.executeAgentNode` (monolithic revision): runs every child
through `executeNode`, keying each child's result data by its kind. -/
def executeAgentNodeV1 (exec : ExecNode) (node : FlowNode) (ctx : Ctx)
    (logs : List LogEntry) : Value × Ctx × List LogEntry :=
  let logs := pushLog logs "info" "执行Agent节点"
  let step := fun (st : List (String × Value) × Ctx × List LogEntry)
                  (child : FlowNode) =>
    let (components, c, l) := st
    let (r, c, l) := exec child c l
    (alSet components child.ntype r.data, c, l)
  let (components, ctx, logs) := node.blocks.foldl step ([], ctx, logs)
  (.vObj [("success", .vBool true), ("message", .vStr "Agent执行完成"),
          ("components", .vObj components)], ctx, logs)

/-- The `for (const caseBlock of node.blocks)` loop of
`FlowEngine.executeSwitchNode`: the FIRST `case`-typed child whose
`condition` input evaluates truthy (absent condition counts as true) is
executed and reported. -/
def switchLoopV1 (exec : ExecNode) (blocks : List FlowNode) (ctx : Ctx)
    (logs : List LogEntry) : Option Value × Ctx × List LogEntry :=
  match blocks with
  | [] => (none, ctx, logs)
  | b :: rest =>
    if b.ntype == "case" then
      if evaluateCondition b ctx.vars then
        let logs := pushLog logs "info"
          ("执行Case分支: " ++ (b.data.title.getD "undefined"))
        let (_, ctx, logs) := exec b ctx logs
        (some (.vObj [("success", .vBool true), ("branch", .vStr b.id),
                      ("condition", .vBool true)]), ctx, logs)
      else switchLoopV1 exec rest ctx logs
    else switchLoopV1 exec rest ctx logs

/-- `FlowEngine.executeSwitchNode` (monolithic revision): unlike the
module executor, it selects by each case child's own `condition` input,
not by value matching, and records no warning when nothing matches. -/
def executeSwitchNodeV1 (exec : ExecNode) (node : FlowNode) (ctx : Ctx)
    (logs : List LogEntry) : Value × Ctx × List LogEntry :=
  let logs := pushLog logs "info" "执行Switch节点"
  match switchLoopV1 exec node.blocks ctx logs with
  | (some v, ctx, logs) => (v, ctx, logs)
  | (none, ctx, logs) =>
    match node.blocks.find? (fun b => b.ntype == "caseDefault") with
    | some d =>
      let logs := pushLog logs "info" "执行Default分支"
      let (_, ctx, logs) := exec d ctx logs
      (.vObj [("success", .vBool true), ("branch", .vStr d.id),
              ("condition", .vBool false)], ctx, logs)
    | none =>
      (.vObj [("success", .vBool true), ("message", .vStr "无匹配的分支")],
       ctx, logs)

/-- The inner `for (const block of node.blocks)` of
`FlowEngine.executeLoopNode`: execute each block, stopping this pass (the
`break` exits only this inner loop) when `shouldBreakLoop` fires. -/
def loopBlocksV1 (exec : ExecNode) (blocks : List FlowNode) (ctx : Ctx)
    (logs : List LogEntry) : Ctx × List LogEntry :=
  match blocks with
  | [] => (ctx, logs)
  | b :: rest =>
    let (_, ctx, logs) := exec b ctx logs
    if shouldBreakLoop b then
      (ctx, pushLog logs "info" "Loop中断")
    else loopBlocksV1 exec rest ctx logs

/-- The `for (let i = 0; i < items.length; i++)` of
`FlowEngine.executeLoopNode`: set the reserved loop variables, run the
body blocks, then record `__loop_item`.  Note that the inner `break` does
NOT stop this outer iteration. -/
def loopItemsV1 (exec : ExecNode) (blocks : List FlowNode) (total : Nat)
    (items : List Value) (i : Nat) (ctx : Ctx) (logs : List LogEntry)
    (results : List Value) : Ctx × List LogEntry × List Value :=
  match items with
  | [] => (ctx, logs, results)
  | item :: rest =>
    let ctx := { ctx with
      vars := alSet (alSet ctx.vars "__loop_index" (.vNum (Int.ofNat i)))
                    "__loop_item" item }
    let logs := pushLog logs "debug"
      ("Loop迭代 " ++ toString (i + 1) ++ "/" ++ toString total)
    let (ctx, logs) := loopBlocksV1 exec blocks ctx logs
    let results := results ++ [(alGet ctx.vars "__loop_item").getD .vUndef]
    loopItemsV1 exec blocks total rest (i + 1) ctx logs results

/-- `FlowEngine.executeLoopNode` (monolithic revision): resolves the
iterable, pushes a `LoopContext`, iterates, and in `finally` pops the
stack and deletes the reserved variables (also the per-iteration
`LoopContext` field updates are unobservable: nothing reads the stack). -/
def executeLoopNodeV1 (exec : ExecNode) (node : FlowNode) (ctx : Ctx)
    (logs : List LogEntry) : Except String Value × Ctx × List LogEntry :=
  let logs := pushLog logs "info" "执行Loop节点"
  match node.data.batchFor with
  | none => (.error "Loop节点缺少batchFor配置", ctx, logs)
  | some bf =>
    match resolveInputValue bf ctx.vars with
    | .vArr items =>
      let lc : LoopContext :=
        { nodeId := node.id, items := items, currentIndex := 0,
          currentItem := .vNull, savedVars := ctx.vars }
      let ctx := { ctx with loopStack := lc :: ctx.loopStack }
      let (ctx, logs, results) :=
        loopItemsV1 exec node.blocks items.length items 0 ctx logs []
      let ctx := { ctx with
        loopStack := ctx.loopStack.tail
        vars := alDel (alDel ctx.vars "__loop_index") "__loop_item" }
      (.ok (.vObj [("success", .vBool true),
                   ("iterations", .vNum (Int.ofNat results.length)),
                   ("totalItems", .vNum (Int.ofNat items.length)),
                   ("results", .vArr results)]), ctx, logs)
    | _ => (.error "Loop节点的batchFor必须是数组", ctx, logs)

/-- `FlowEngine.executeIfNode` (monolithic revision). -/
def executeIfNodeV1 (exec : ExecNode) (node : FlowNode) (ctx : Ctx)
    (logs : List LogEntry) : Value × Ctx × List LogEntry :=
  let logs := pushLog logs "info" "执行If节点"
  let condition := evaluateCondition node ctx.vars
  let logs := pushLog logs "debug"
    ("If条件结果: " ++ (if condition then "true" else "false"))
  let trueBranch := node.blocks.find? (fun b => b.data.title == some "true")
  let falseBranch := node.blocks.find? (fun b => b.data.title == some "false")
  match condition, trueBranch with
  | true, some tb =>
    let logs := pushLog logs "info" "执行true分支"
    let (_, ctx, logs) := exec tb ctx logs
    (.vObj [("success", .vBool true), ("condition", .vBool true),
            ("branch", .vStr "true")], ctx, logs)
  | _, _ =>
    match condition, falseBranch with
    | false, some fb =>
      let logs := pushLog logs "info" "执行false分支"
      let (_, ctx, logs) := exec fb ctx logs
      (.vObj [("success", .vBool true), ("condition", .vBool false),
              ("branch", .vStr "false")], ctx, logs)
    | _, _ =>
      (.vObj [("success", .vBool true), ("condition", .vBool condition),
              ("branch", .vStr "none")], ctx, logs)

/-- `FlowEngine.executeTryCatchNode` (monolithic revision).  Its `try`
arm executes the try block via `executeNode`; since `executeNode` catches
every failure internally and returns a (possibly failed) result instead of
throwing, the source's `catch (error)` arm — the guard-evaluation chain
over `catchBlock` children — is unreachable and the try arm always
reports `executed: 'try'`. -/
def executeTryCatchNodeV1 (exec : ExecNode) (node : FlowNode) (ctx : Ctx)
    (logs : List LogEntry) : Except String Value × Ctx × List LogEntry :=
  let logs := pushLog logs "info" "执行TryCatch节点"
  match node.blocks.find? (fun b => b.ntype == "tryBlock") with
  | none => (.error "TryCatch节点缺少tryBlock", ctx, logs)
  | some tb =>
    let logs := pushLog logs "info" "执行try块"
    let (_, ctx, logs) := exec tb ctx logs
    (.ok (.vObj [("success", .vBool true), ("executed", .vStr "try"),
                 ("error", .vNull)]), ctx, logs)

/-- `FlowEngine.executeActionNode` (monolithic revision, a mock). -/
def executeActionNodeV1 (ctx : Ctx) (logs : List LogEntry) :
    Value × Ctx × List LogEntry :=
  let logs := pushLog logs "info" "执行Action节点"
  (.vObj [("success", .vBool true), ("message", .vStr "Action节点执行完成"),
          ("data", .vObj [("result", .vStr "action_result")])], ctx, logs)

/-- The `switch (node.type)` dispatch of `FlowEngine.executeNode`
(monolithic revision); unknown kinds fall through to the skip warning. -/
def executeDispatchV1 (exec : ExecNode) (node : FlowNode) (ctx : Ctx)
    (logs : List LogEntry) : Except String Value × Ctx × List LogEntry :=
  let t := node.ntype
  if t == "start" then
    let (v, c, l) := executeStartNodeV1 node ctx logs; (.ok v, c, l)
  else if t == "end" then
    let (v, c, l) := executeEndNodeV1 node ctx logs; (.ok v, c, l)
  else if t == "llm" then
    let (v, c, l) := executeLLMNodeV1 node ctx logs; (.ok v, c, l)
  else if t == "agent" then
    let (v, c, l) := executeAgentNodeV1 exec node ctx logs
    (.ok v, c, l)
  else if t == "switch" then
    let (v, c, l) := executeSwitchNodeV1 exec node ctx logs
    (.ok v, c, l)
  else if t == "loop" then
    executeLoopNodeV1 exec node ctx logs
  else if t == "if" then
    let (v, c, l) := executeIfNodeV1 exec node ctx logs
    (.ok v, c, l)
  else if t == "tryCatch" then
    executeTryCatchNodeV1 exec node ctx logs
  else if t == "action" then
    let (v, c, l) := executeActionNodeV1 ctx logs; (.ok v, c, l)
  else
    (.ok (.vObj [("success", .vBool true),
                 ("message", .vStr ("节点 " ++ t ++ " 跳过执行"))]),
     ctx, pushLog logs "warn" ("未实现的节点类型: " ++ t))

/-- One visit of `FlowEngine.executeNode` (monolithic revision), after the
dispatch: record a (success or failure) result for this node, then
unconditionally execute all children. -/
def executeNodeStepV1 (exec : ExecNode) (node : FlowNode) (ctx : Ctx)
    (logs : List LogEntry) : NodeExecutionResult × Ctx × List LogEntry :=
  let ctx := { ctx with currentNode := some node.id }
  let logs := pushLog logs "info" ("执行节点: " ++ node.ntype)
  match executeDispatchV1 exec node ctx logs with
  | (.ok v, ctx, logs) =>
    let er : NodeExecutionResult :=
      { success := true, data := v, nodeType := node.ntype }
    let ctx := setResult ctx node.id er
    let (ctx, logs) := execChildrenFold exec node.blocks (ctx, logs)
    (er, ctx, logs)
  | (.error msg, ctx, logs) =>
    let logs := pushLog logs "error" ("节点执行失败: " ++ msg)
    let er : NodeExecutionResult :=
      { success := false, error := some msg, nodeType := node.ntype }
    (er, setResult ctx node.id er, logs)

/-- `FlowEngine.executeNode` (monolithic revision), tied recursively with
depth fuel (any value at least the tree depth yields the source
semantics). -/
def executeNodeV1 : Nat → FlowNode → Ctx → List LogEntry →
    NodeExecutionResult × Ctx × List LogEntry
  | 0, node, ctx, logs =>
    ({ success := false, error := some "fuel", nodeType := node.ntype }, ctx, logs)
  | Nat.succ fuel, node, ctx, logs =>
    executeNodeStepV1 (executeNodeV1 fuel) node ctx logs

/-- `FlowEngine.executeFlow` (monolithic revision). -/
def executeFlowV1 (fuel : Nat) (doc : FlowDocument) (inputData : Dict) :
    FlowExecutionResult :=
  let ctx : Ctx := { vars := dictMerge doc.vars inputData }
  let logs := pushLog [] "info" "流程开始执行"
  let startNodes := findStartNodes doc.nodes
  if startNodes.isEmpty then
    let msg := "未找到起始节点 (start)"
    let logs := pushLog logs "error" msg
    { success := false, results := ctx.nodeResults,
      finalVariables := ctx.vars, error := some msg, logs := logs }
  else
    let logs := pushLog logs "info"
      ("找到 " ++ toString startNodes.length ++ " 个起始节点")
    let (ctx, logs) := execChildrenFold (executeNodeV1 fuel) startNodes (ctx, logs)
    let logs := pushLog logs "info" "流程执行完成"
    { success := true, results := ctx.nodeResults,
      finalVariables := ctx.vars, logs := logs }

/- ===== Relationship rules (core/node-relationships.ts) ===== -/

/-- `Array.prototype.join(', ')`. -/
def joinComma : List String → String
  | [] => ""
  | [x] => x
  | x :: y :: rest => x ++ ", " ++ joinComma (y :: rest)

/-- `NODE_RELATIONSHIPS.parentChild`: parent kind to permitted child kinds. -/
def parentChildAllowed (t : String) : Option (List String) :=
  if t == "switch" then some ["case", "caseDefault"]
  else if t == "if" then some ["ifBlock"]
  else if t == "loop" then some ["if", "llm", "action", "agent", "breakLoop"]
  else if t == "tryCatch" then some ["tryBlock", "catchBlock"]
  else if t == "agent" then some ["agentLLM", "agentMemory", "agentTools"]
  else if t == "agentLLM" then some ["llm"]
  else if t == "agentMemory" then some ["memory"]
  else if t == "agentTools" then some ["tool"]
  else none

/-- `NODE_RELATIONSHIPS.requiredChildren`. -/
def requiredChildrenOf (t : String) : Option (List String) :=
  if t == "switch" then some ["case"]
  else if t == "if" then some ["ifBlock"]
  else if t == "tryCatch" then some ["tryBlock"]
  else if t == "agent" then some ["agentLLM"]
  else if t == "agentLLM" then some ["llm"]
  else if t == "agentMemory" then some ["memory"]
  else if t == "agentTools" then some ["tool"]
  else none

/-- `NODE_RELATIONSHIPS.dependencies`: child kind to advisory parents. -/
def dependenciesOf (t : String) : Option (List String) :=
  if t == "case" then some ["switch"]
  else if t == "caseDefault" then some ["switch"]
  else if t == "ifBlock" then some ["if"]
  else if t == "tryBlock" then some ["tryCatch"]
  else if t == "catchBlock" then some ["tryCatch"]
  else if t == "breakLoop" then some ["loop"]
  else if t == "agentLLM" then some ["agent"]
  else if t == "agentMemory" then some ["agent"]
  else if t == "agentTools" then some ["agent"]
  else if t == "llm" then some ["agentLLM", "loop", "if"]
  else if t == "memory" then some ["agentMemory"]
  else if t == "tool" then some ["agentTools"]
  else none

mutual

/-- `NodeRelationshipManager.hasChildRecursively`. -/
def hasChildRecursively (parent : FlowNode) (targetId : String) : Bool :=
  match parent with
  | .node _ _ _ blocks => hasChildInList blocks targetId
termination_by structural parent

/-- The `for (const child of parent.blocks)` of `hasChildRecursively`. -/
def hasChildInList : List FlowNode → String → Bool
  | [], _ => false
  | child :: rest, targetId =>
    child.id == targetId || hasChildRecursively child targetId
      || hasChildInList rest targetId
termination_by structural bs => bs

end

/-- `NodeRelationshipManager.findValidParent`. -/
def findValidParent (targetNode : FlowNode) (allNodes : List FlowNode)
    (validParentTypes : List String) : Bool :=
  allNodes.any (fun n =>
    validParentTypes.contains n.ntype && hasChildRecursively n targetNode.id)

/-- `validateParentChildRelationship`: each child must be of a permitted
kind when the parent kind is constrained. -/
def parentChildErrors (node : FlowNode) : List String :=
  match parentChildAllowed node.ntype with
  | none => []
  | some allowed =>
    (node.blocks.filter (fun c => !allowed.contains c.ntype)).map (fun c =>
      "节点 " ++ node.ntype ++ " 不允许包含子节点类型 " ++ c.ntype ++
      "，允许的类型: " ++ joinComma allowed)

/-- `validateRequiredChildren`: structurally load-bearing kinds
(`case`/`ifBlock`/`tryBlock`) produce errors, the rest warnings. -/
def requiredChildrenReport (node : FlowNode) : List String × List String :=
  match requiredChildrenOf node.ntype with
  | none => ([], [])
  | some required =>
    required.foldl
      (fun acc req =>
        if node.blocks.any (fun c => c.ntype == req) then acc
        else if req == "case" || req == "ifBlock" || req == "tryBlock" then
          (acc.1 ++ ["节点 " ++ node.ntype ++ " 必须包含至少一个 " ++ req ++ " 子节点"],
           acc.2)
        else
          (acc.1,
           acc.2 ++ ["建议 " ++ node.ntype ++ " 节点包含 " ++ req ++ " 子节点"]))
      ([], [])

/-- `validateDependencies`: advisory warning when a dependent kind is not
found under one of its expected parents. -/
def dependencyWarnings (node : FlowNode) (allNodes : List FlowNode) :
    List String :=
  match dependenciesOf node.ntype with
  | none => []
  | some deps =>
    if findValidParent node allNodes deps then []
    else ["节点 " ++ node.ntype ++ " 建议在以下父节点中使用: " ++ joinComma deps]

/-- `NodeRelationshipManager.validateNodeRelationships`.  The
`mutuallyExclusive` table is empty in the source, so that check
contributes nothing. -/
def validateNodeRelationships (node : FlowNode) (allNodes : List FlowNode) :
    List String × List String :=
  let (reqErr, reqWarn) := requiredChildrenReport node
  (parentChildErrors node ++ reqErr,
   reqWarn ++ dependencyWarnings node allNodes)

/- ===== Executor `validate` methods ===== -/

/-- `{ valid, errors, warnings }`. -/
structure ValidationReport where
  valid : Bool
  errors : List String
  warnings : List String

/-- `BaseNodeExecutor.validate` (core/node-executor.ts): baseline checks
(present id, present kind, kind matching the executor), relationship
checks when the full node list is supplied, then the subclass's
`validateNode` contribution.  `valid` reflects exactly these errors. -/
def baseValidate (ownType : String) (node : FlowNode)
    (allNodes : Option (List FlowNode)) (custom : List String × List String) :
    ValidationReport :=
  let baseErrors :=
    (if node.id == "" then ["节点缺少id"] else []) ++
    (if node.ntype == "" then ["节点缺少type"] else []) ++
    (if node.ntype != ownType then
       ["节点类型不匹配: 期望 " ++ ownType ++ ", 实际 " ++ node.ntype]
     else [])
  let (relErr, relWarn) :=
    match allNodes with
    | some ns => validateNodeRelationships node ns
    | none => ([], [])
  let errors := baseErrors ++ relErr ++ custom.1
  { valid := errors.isEmpty, errors := errors,
    warnings := relWarn ++ custom.2 }

/-- An override-style `validate` (switch/tryCatch/agent/agent components):
it appends its own findings to `super.validate`'s result AFTER `valid` was
computed, so `valid` does not account for them. -/
def appendStale (base : ValidationReport) (custom : List String × List String) :
    ValidationReport :=
  { base with errors := base.errors ++ custom.1,
              warnings := base.warnings ++ custom.2 }

/-- `StartNodeExecutor.validateNode`. -/
def startCustom (node : FlowNode) : List String × List String :=
  ([], if node.blocks.isEmpty then ["开始节点建议连接后续节点"] else [])

/-- `EndNodeExecutor.validateNode`. -/
def endCustom (node : FlowNode) : List String × List String :=
  ([], if node.blocks.isEmpty then [] else ["结束节点不应该有子节点"])

/-- `LLMNodeExecutor.validateNode`.  The `modelType` check compares
`typeof inputValues.modelType` — an `InputValue` object, never a string —
so it fires whenever `modelType` is set; the `temperature` range check
requires `typeof temp === 'number'` on the same object shape and can
never fire. -/
def llmCustom (node : FlowNode) : List String × List String :=
  ((if (alGet node.data.inputsValues "modelType").isSome then
      ["modelType参数必须是字符串"]
    else []),
   (if (alGet node.data.inputsValues "prompt").isNone then
      ["LLM节点建议设置prompt参数"]
    else []))

/-- `ActionNodeExecutor.validateNode` (`!node.data?.actionId`). -/
def actionCustom (node : FlowNode) : List String × List String :=
  ((match node.data.actionId with
    | some a => if a == "" then ["Action节点必须配置actionId"] else []
    | none => ["Action节点必须配置actionId"]),
   [])

/-- `LoopNodeExecutor.validateNode`. -/
def loopCustom (node : FlowNode) : List String × List String :=
  ((if node.data.batchFor.isNone then ["Loop节点缺少batchFor配置"] else []),
   (if node.blocks.isEmpty then ["Loop节点建议有循环体"] else []))

/-- `IfNodeExecutor.validateNode`. -/
def ifCustom (node : FlowNode) : List String × List String :=
  ([],
   (if (alGet node.data.inputsValues "condition").isNone then
      ["If节点建议设置condition参数"]
    else []) ++
   (if (node.blocks.find? (fun b => b.data.title == some "true")).isNone
       && (node.blocks.find? (fun b => b.data.title == some "false")).isNone then
      ["If节点建议至少有一个分支"]
    else []))

/-- The switch-specific part of `SwitchNodeExecutor.validate`. -/
def switchCustom (node : FlowNode) : List String × List String :=
  let expr := rawContent node "expression"
  let caseBranches := node.blocks.filter
    (fun b => b.ntype == "case" || b.ntype == "caseDefault")
  let defaultCases := node.blocks.filter (fun b => b.ntype == "caseDefault")
  let cases := node.blocks.filter (fun b => b.ntype == "case")
  ((if !truthy expr then ["Switch节点必须设置表达式"] else []) ++
   (if caseBranches.isEmpty then
      ["Switch节点必须包含至少一个case或caseDefault分支"]
    else []) ++
   (if defaultCases.length > 1 then
      ["Switch节点只能包含一个caseDefault分支"]
    else []),
   (cases.filter (fun c =>
      match getCaseValue c with
      | .vNull => true
      | .vUndef => true
      | _ => false)).map (fun c => "Case分支 " ++ c.id ++ " 建议设置匹配值"))

/-- The tryCatch-specific part of `TryCatchNodeExecutor.validate`. -/
def tryCatchCustom (node : FlowNode) : List String × List String :=
  let tryBlock := node.blocks.find? (fun b => b.ntype == "tryBlock")
  let catchBlock := node.blocks.find? (fun b => b.ntype == "catchBlock")
  ((if tryBlock.isNone then ["TryCatch节点必须包含try分支"] else []),
   (if catchBlock.isNone then ["建议添加catch分支来处理异常"] else []) ++
   (match tryBlock with
    | some tb => if tb.blocks.isEmpty then ["try分支为空，建议添加要执行的节点"] else []
    | none => []))

/-- The agent-specific part of `AgentNodeExecutor.validate`. -/
def agentCustom (node : FlowNode) : List String × List String :=
  ((if node.blocks.isEmpty then
      ["Agent节点必须包含至少一个组件 (agentLLM, agentMemory, agentTools)"]
    else []) ++
   (if !node.blocks.any (fun b => b.ntype == "agentLLM") then
      ["Agent节点必须包含agentLLM组件"]
    else []),
   node.blocks.foldl
     (fun acc c =>
       if c.ntype == "agentLLM" && c.blocks.isEmpty then
         acc ++ ["agentLLM组件建议包含LLM子节点"]
       else if c.ntype == "agentMemory" && c.blocks.isEmpty then
         acc ++ ["agentMemory组件建议包含Memory子节点"]
       else if c.ntype == "agentTools" && c.blocks.isEmpty then
         acc ++ ["agentTools组件建议包含Tool子节点"]
       else acc)
     [])

/-- The agentLLM-specific part of `AgentLLMNodeExecutor.validate`. -/
def agentLLMCustom (node : FlowNode) : List String × List String :=
  ([],
   (if !node.blocks.any (fun b => b.ntype == "llm") then
      ["AgentLLM节点建议包含至少一个LLM子节点"]
    else []) ++
   ((node.blocks.filter (fun c =>
       c.ntype == "llm" && !truthy (rawContent c "prompt"))).map
     (fun c => "LLM子节点 " ++ c.id ++ " 建议设置提示词")))

/-- The agentMemory-specific part of `AgentMemoryNodeExecutor.validate`. -/
def agentMemoryCustom (node : FlowNode) : List String × List String :=
  ([],
   if !node.blocks.any (fun b => b.ntype == "memory") then
     ["AgentMemory节点建议包含至少一个Memory子节点"]
   else [])

/-- The agentTools-specific part of `AgentToolsNodeExecutor.validate`. -/
def agentToolsCustom (node : FlowNode) : List String × List String :=
  ([],
   (if !node.blocks.any (fun b => b.ntype == "tool") then
      ["AgentTools节点建议包含至少一个Tool子节点"]
    else []) ++
   ((node.blocks.filter (fun c =>
       c.ntype == "tool" &&
       !truthy ((c.data.title.map Value.vStr).getD .vUndef))).map
     (fun c => "Tool子节点 " ++ c.id ++ " 建议设置标题")))

/-- The registered executor's `validate` for kind `t`.  Kinds whose
`validate` override re-invokes `super.validate(node)` without forwarding
`allNodes` (case, caseDefault, ifBlock, tryBlock, catchBlock, breakLoop,
memory, tool, tryCatch, agentLLM, agentMemory, agentTools) skip the
relationship checks; override-style kinds append their findings after
`valid` was computed (see `appendStale`). -/
def executorValidate (t : String) (node : FlowNode)
    (allNodes : Option (List FlowNode)) : ValidationReport :=
  if t == "start" then baseValidate t node allNodes (startCustom node)
  else if t == "end" then baseValidate t node allNodes (endCustom node)
  else if t == "llm" then baseValidate t node allNodes (llmCustom node)
  else if t == "action" then baseValidate t node allNodes (actionCustom node)
  else if t == "loop" then baseValidate t node allNodes (loopCustom node)
  else if t == "if" then baseValidate t node allNodes (ifCustom node)
  else if t == "switch" then
    appendStale (baseValidate t node allNodes ([], [])) (switchCustom node)
  else if t == "tryCatch" then
    appendStale (baseValidate t node none ([], [])) (tryCatchCustom node)
  else if t == "agent" then
    appendStale (baseValidate t node allNodes ([], [])) (agentCustom node)
  else if t == "agentLLM" then
    appendStale (baseValidate t node none ([], [])) (agentLLMCustom node)
  else if t == "agentMemory" then
    appendStale (baseValidate t node none ([], [])) (agentMemoryCustom node)
  else if t == "agentTools" then
    appendStale (baseValidate t node none ([], [])) (agentToolsCustom node)
  else baseValidate t node none ([], [])

/-- `nodeIds.filter((id, index) => nodeIds.indexOf(id) !== index)`. -/
def duplicateIds (ids : List String) : List String :=
  (ids.enum.filter (fun p => ids.findIdx (fun y => y == p.2) != p.1)).map
    (fun p => p.2)

/-- `FlowEngine.validateFlowDocument` (registry revision): structural
checks plus each TOP-LEVEL node's executor validation with the top-level
node list; a node's errors enter the aggregate only when its own report
says `valid: false` (the source tests `!validation.valid` before pushing
errors), while warnings are always appended.  The initial
`!Array.isArray(flowDocument.nodes)` guard is unrepresentable in the
typed model.  This is one top-level node's contribution of the
`for (const node of flowDocument.nodes)` loop. -/
def validateNodeContribution (allNodes : List FlowNode) (n : FlowNode) :
    List String × List String :=
  match getExecutor n.ntype with
  | none =>
    (["不支持的节点类型: " ++ n.ntype ++ " (节点ID: " ++ n.id ++ ")"], [])
  | some _ =>
    let v := executorValidate n.ntype n (some allNodes)
    ((if !v.valid then v.errors.map (fun e => "节点 " ++ n.id ++ ": " ++ e)
      else []),
     v.warnings.map (fun w => "节点 " ++ n.id ++ ": " ++ w))

/-- `FlowEngine.validateFlowDocument` (registry revision): the empty-list
structural check, every TOP-LEVEL node's executor validation with the
top-level node list, the missing-start/missing-end advisories, and the
duplicate check over TOP-LEVEL ids only; nested nodes are never visited
and nothing is executed. -/
def validateFlowDocument (doc : FlowDocument) : ValidationReport :=
  if doc.nodes.isEmpty then
    { valid := false, errors := ["流程必须至少包含一个节点"], warnings := [] }
  else
    let (errors, warnings) := doc.nodes.foldl
      (fun (acc : List String × List String) n =>
        (acc.1 ++ (validateNodeContribution doc.nodes n).1,
         acc.2 ++ (validateNodeContribution doc.nodes n).2))
      ([], [])
    let warnings := warnings ++
      (if (findStartNodes doc.nodes).isEmpty then ["建议添加起始节点 (start)"] else []) ++
      (if (doc.nodes.filter (fun n => n.ntype == "end")).isEmpty then
         ["建议添加结束节点 (end)"]
       else [])
    let dups := duplicateIds (doc.nodes.map FlowNode.id)
    let errors := errors ++
      (if dups.isEmpty then [] else ["发现重复的节点ID: " ++ joinComma dups])
    { valid := errors.isEmpty, errors := errors, warnings := warnings }

/-- The same method with the engine object's only mutable dependency (the
registry, as its list of registered kind strings) threaded explicitly as
state: the faithful translation contains no write to it or to the
document, so it is returned untouched.  Used to state purity (C9). -/
def validateFlowDocumentSt (doc : FlowDocument) (registryState : List String) :
    ValidationReport × List String :=
  (validateFlowDocument doc, registryState)

/- ===== Spec-side definitions (written from the specification's words,
        for refinement comparisons) and concrete documents ===== -/

/-- Spec wording of the switch match chain: "exact value equality, else
string-form equality, else numeric equality if both sides parse as
numbers". -/
def specMatchChain (e c : Value) : Bool :=
  strictEq e c || toStr e == toStr c ||
  (match toNum e, toNum c with
   | some a, some b => a == b
   | _, _ => false)

/-- Spec wording of switch branch selection: "the first matching case wins
(authoring order); if none match, a single designated default-case child
runs if present; if neither matches, nothing runs". -/
def specSwitchSelect (node : FlowNode) (v : Value) : Option FlowNode :=
  match node.blocks.find?
      (fun b => b.ntype == "case" && specMatchChain v (getCaseValue b)) with
  | some c => some c
  | none => node.blocks.find? (fun b => b.ntype == "caseDefault")

/-- The fixed agent component order of the spec: "LLM → Memory → Tools". -/
def canonicalAgentOrder : List String :=
  ["agentLLM", "agentMemory", "agentTools"]

/-- Reads one field of the recorded result data of a node, `undefined`
when the node has no recorded result. -/
def resultDataField (results : List (String × NodeExecutionResult))
    (id k : String) : Value :=
  match alGet results id with
  | some r => jsIndex r.data k
  | none => (.vUndef)

/-- Whether a node's recorded result reports success. -/
def resultSuccess (results : List (String × NodeExecutionResult))
    (id : String) : Option Bool :=
  (alGet results id).map (fun r => r.success)

/-- How many log entries carry the given message. -/
def countLog (logs : List LogEntry) (msg : String) : Nat :=
  (logs.filter (fun e => e.message == msg)).length

/-- C1's document: a start node over a switch whose first case's condition
is `true` (taken) and whose second case's condition is `false`
(non-taken). -/
def c1Doc : FlowDocument :=
  { nodes := [.node "start1" "start" {} [.node "switch1" "switch" {}
      [.node "case1" "case"
         { inputsValues := [("condition", .constVal (.vBool true))] } [],
       .node "case2" "case"
         { inputsValues := [("condition", .constVal (.vBool false))] } []]]] }

/-- C3's document: a two-item loop whose body is a single `breakLoop`. -/
def c3Doc : FlowDocument :=
  { nodes := [.node "start1" "start" {}
      [.node "loop1" "loop"
         { batchFor := some (.constVal (.vArr [.vNum 1, .vNum 2])) }
         [.node "brk" "breakLoop" {} []]]] }

/-- C4's document: a try/catch whose try branch contains a node that fails
(a loop missing `batchFor`) and whose catch branch's guard is the constant
`true`. -/
def c4Doc : FlowDocument :=
  { nodes := [.node "start1" "start" {}
      [.node "tc1" "tryCatch" {}
         [.node "tryB" "tryBlock" {} [.node "badLoop" "loop" {} []],
          .node "catchB" "catchBlock"
            { inputsValues := [("condition", .constVal (.vBool true))] } []]]] }

/-- C2's witness node: a switch over `${userType}` with cases `normal` and
`vip` and no default. -/
def c2Switch : FlowNode :=
  .node "sw" "switch"
    { inputsValues := [("expression", .constVal (.vStr "${userType}"))] }
    [.node "caseN" "case"
       { inputsValues := [("value", .constVal (.vStr "normal"))] } [],
     .node "caseV" "case"
       { inputsValues := [("value", .constVal (.vStr "vip"))] } []]

/-- C5's witness node: agent components authored as Tools, LLM, Memory. -/
def c5Agent : FlowNode :=
  .node "agent1" "agent" {}
    [.node "t" "agentTools" {} [],
     .node "l" "agentLLM" {} [],
     .node "m" "agentMemory" {} []]

/-- C10's witness document: a start node with a `breakLoop` child. -/
def c10Doc : FlowDocument :=
  { nodes := [.node "s1" "start" {} [.node "b1" "breakLoop" {} []]] }

mutual

/-- All ids of a node's subtree (the spec's "whole nested tree"). -/
def collectIds (n : FlowNode) : List String :=
  match n with
  | .node i _ _ blocks => i :: collectIdsList blocks
termination_by structural n

/-- All ids of a forest of subtrees. -/
def collectIdsList : List FlowNode → List String
  | [] => []
  | b :: rest => collectIds b ++ collectIdsList rest
termination_by structural bs => bs

end

/-- Every id across the whole nested tree of a document. -/
def docTreeIds (doc : FlowDocument) : List String :=
  collectIdsList doc.nodes

/-- C8's counterexample document: the top-level start node and its nested
`llm` child share the id `a`, violating whole-tree id uniqueness — and
the nested child is structurally invalid on its own (it would warn). -/
def c8Doc : FlowDocument :=
  { nodes := [.node "a" "start" {} [.node "a" "llm" {} []]] }

/-- C8's witness document: one top-level node with a missing id, whose own
executor validation fails. -/
def c8WitDoc : FlowDocument :=
  { nodes := [.node "" "llm" {} []] }

/-- Does this optional value hold the literal `true`? -/
def isTrueFlag : Option Value → Bool
  | some (.vBool true) => true
  | _ => false

/-- The reserved flag `__break_loop__` is present with value `true` in a
variable mapping. -/
def breakFlagSet (vars : Dict) : Bool :=
  isTrueFlag (alGet vars "__break_loop__")

/-- No output property of this node data is named `__break_loop__`.  The
`start` executor is the only registry executor that writes caller-chosen
keys into the shared variables, so such a property is the only way a
document could overwrite the reserved flag. -/
def dataShadowFree (d : NodeData) : Bool :=
  d.outputsProps.all (fun p => p.1 != "__break_loop__")

mutual

/-- No node of this subtree declares an output property named
`__break_loop__`. -/
def shadowFree (n : FlowNode) : Bool :=
  match n with
  | .node _ _ d blocks => dataShadowFree d && shadowFreeList blocks
termination_by structural n

/-- `shadowFree` over a forest. -/
def shadowFreeList : List FlowNode → Bool
  | [] => true
  | b :: rest => shadowFree b && shadowFreeList rest
termination_by structural bs => bs

end

/-- Some recorded node result came from a `breakLoop` node. -/
def hasBreakResult (rs : List (String × NodeExecutionResult)) : Bool :=
  rs.any (fun p => p.2.nodeType == "breakLoop")

/-- The leak invariant of the registry engine: whenever a `breakLoop`
result has been recorded, the reserved flag is set in the shared
variables. -/
def ctxBreakInv (ctx : Ctx) : Prop :=
  hasBreakResult ctx.nodeResults = true → breakFlagSet ctx.vars = true

/- ===================================================================
   Theorems.
   =================================================================== -/

theorem alGet_alSet_self {α : Type} (d : List (String × α)) (k : String) (v : α) :
    alGet (alSet d k v) k = some v := by
  induction d with
  | nil => simp [alGet, alSet]
  | cons p rest ih =>
    obtain ⟨a, b⟩ := p
    by_cases h : a = k
    · simp [alSet, alGet, h]
    · simp [alSet, alGet, h, ih]

theorem alGet_alSet_ne {α : Type} (d : List (String × α)) (k k' : String) (v : α)
    (h : k' ≠ k) : alGet (alSet d k v) k' = alGet d k' := by
  induction d with
  | nil => simp [alGet, alSet, Ne.symm h]
  | cons p rest ih =>
    obtain ⟨a, b⟩ := p
    by_cases hp : a = k
    · simp [alSet, alGet, hp, Ne.symm h]
    · by_cases hp' : a = k'
      · subst hp'
        simp [alSet, alGet, hp, h]
      · simp [alSet, alGet, hp, hp', ih]

theorem alGet_alDel_self {α : Type} (d : List (String × α)) (k : String) :
    alGet (alDel d k) k = none := by
  induction d with
  | nil => simp [alGet, alDel]
  | cons p rest ih =>
    obtain ⟨a, b⟩ := p
    by_cases h : a = k
    · simpa [alDel, alGet, h] using ih
    · simp [alDel, alGet, h, ih]

theorem alGet_alDel_ne {α : Type} (d : List (String × α)) (k k' : String)
    (h : k' ≠ k) : alGet (alDel d k) k' = alGet d k' := by
  induction d with
  | nil => simp [alGet, alDel]
  | cons p rest ih =>
    obtain ⟨a, b⟩ := p
    by_cases hp : a = k
    · subst hp
      simp [alDel, alGet, Ne.symm h, ih]
    · by_cases hp' : a = k'
      · subst hp'
        simp [alDel, alGet, hp]
      · simp [alDel, alGet, hp, hp', ih]

theorem mem_alSet {α : Type} (d : List (String × α)) (k : String) (v : α)
    (q : String × α) (hq : q ∈ alSet d k v) : q = (k, v) ∨ q ∈ d := by
  induction d with
  | nil => simpa [alSet] using hq
  | cons p rest ih =>
    obtain ⟨a, b⟩ := p
    by_cases h : a = k
    · subst h
      simp only [alSet, beq_self_eq_true, if_true] at hq
      rcases List.mem_cons.mp hq with h1 | h2
      · exact Or.inl h1
      · exact Or.inr (List.mem_cons_of_mem _ h2)
    · simp only [alSet, beq_iff_eq, if_neg h] at hq
      rcases List.mem_cons.mp hq with h1 | h2
      · exact Or.inr (h1 ▸ List.mem_cons_self _ _)
      · rcases ih h2 with h3 | h4
        · exact Or.inl h3
        · exact Or.inr (List.mem_cons_of_mem _ h4)

theorem jsIndex_vUndef (k : String) : jsIndex .vUndef k = .vUndef := rfl

theorem foldl_jsIndex_vUndef (l : List String) :
    l.foldl jsIndex .vUndef = .vUndef := by
  induction l with
  | nil => rfl
  | cons k rest ih => simpa [jsIndex] using ih

theorem splitDotAux_ne_nil (cs : List Char) (acc : List Char) :
    splitDotAux cs acc ≠ [] := by
  induction cs generalizing acc with
  | nil => simp [splitDotAux]
  | cons c rest ih =>
    by_cases h : c = '.'
    · simp [splitDotAux, h]
    · simpa [splitDotAux, h] using ih (c :: acc)

theorem getNestedValue_emptyObj (path : String) :
    getNestedValue (.vObj []) path = .vUndef := by
  unfold getNestedValue splitDot
  rcases hs : splitDotAux path.data [] with _ | ⟨k, rest⟩
  · exact absurd hs (splitDotAux_ne_nil _ _)
  · show (k :: rest).foldl jsIndex (.vObj []) = .vUndef
    have : jsIndex (.vObj []) k = .vUndef := rfl
    simp [this, foldl_jsIndex_vUndef]

/-- C7 counterexample: the claim says a `variable` input falls back to the
raw payload ONLY when the name is absent from the mapping; but with the
name present and bound to the falsy value `false`, the source's
`variables[content] || content` fallback returns the raw payload (the
name string) instead of the stored `false`. -/
theorem c7_counterexample :
    resolveInputValue (.varVal (.vStr "flag")) [("flag", .vBool false)] =
      .vStr "flag" ∧
    resolveInputValue (.varVal (.vStr "flag")) [("flag", .vBool false)] ≠
      .vBool false :=
  ⟨rfl, fun h => Value.noConfusion h⟩

/-- C7 (amended): resolving an `InputValue` behaves as: a constant returns
its payload verbatim; a `variable` resolves the name against the current
variable mapping, falling back to the raw payload when the name is absent
OR its stored value is falsy; a reference `[nodeId, path]` looks up the
entry stored under the node id in the same variable mapping (not a
separate result store) and traverses the dotted path into it when that
entry is truthy, returning `undefined` (for any path) when it is absent. -/
theorem c7_resolveInputValue_behavior :
    (∀ (c : Value) (vars : Dict), resolveInputValue (.constVal c) vars = c) ∧
    (∀ (name v : Value) (vars : Dict),
       alGet vars (toStr name) = some v → truthy v = true →
       resolveInputValue (.varVal name) vars = v) ∧
    (∀ (name : Value) (vars : Dict),
       alGet vars (toStr name) = none →
       resolveInputValue (.varVal name) vars = name) ∧
    (∀ (name v : Value) (vars : Dict),
       alGet vars (toStr name) = some v → truthy v = false →
       resolveInputValue (.varVal name) vars = name) ∧
    (∀ (nodeId path v : Value) (rest : List Value) (vars : Dict),
       alGet vars (toStr nodeId) = some v → truthy v = true →
       resolveInputValue (.refVal (.vArr (nodeId :: path :: rest))) vars =
         getNestedValue v (toStr path)) ∧
    (∀ (nodeId path : Value) (rest : List Value) (vars : Dict),
       alGet vars (toStr nodeId) = none →
       resolveInputValue (.refVal (.vArr (nodeId :: path :: rest))) vars =
         .vUndef) := by
  refine ⟨fun c vars => rfl, ?_, ?_, ?_, ?_, ?_⟩
  · intro name v vars h ht
    simp [resolveInputValue, h, ht]
  · intro name vars h
    simp [resolveInputValue, h, truthy]
  · intro name v vars h ht
    simp [resolveInputValue, h, ht]
  · intro nodeId path v rest vars h ht
    simp [resolveInputValue, h, ht]
  · intro nodeId path rest vars h
    simp [resolveInputValue, h, truthy, getNestedValue_emptyObj]

/-- Witness for C7's amended theorem at concrete inputs: variable `x`
present with the truthy value `"v"` resolves to the stored value. -/
theorem c7_resolveInputValue_behavior_witness :
    alGet [("x", Value.vStr "v")] (toStr (Value.vStr "x")) =
      some (Value.vStr "v") ∧
    truthy (Value.vStr "v") = true ∧
    resolveInputValue (.varVal (.vStr "x")) [("x", Value.vStr "v")] =
      .vStr "v" :=
  ⟨rfl, rfl, c7_resolveInputValue_behavior.2.1 (Value.vStr "x")
    (Value.vStr "v") [("x", Value.vStr "v")] rfl rfl⟩

theorem find?_congr {α : Type} (l : List α) (p q : α → Bool)
    (h : ∀ b, p b = q b) : l.find? p = l.find? q := by
  induction l with
  | nil => rfl
  | cons x xs ih =>
    cases hx : p x
    · rw [List.find?_cons_of_neg _ (by simp [hx]),
          List.find?_cons_of_neg _ (by simp [← h x, hx]), ih]
    · rw [List.find?_cons_of_pos _ hx, List.find?_cons_of_pos _ (by rw [← h x, hx])]

theorem findCaseLoop_eq_find? (blocks : List FlowNode) (v : Value) :
    findCaseLoop blocks v =
      blocks.find? (fun b => b.ntype == "case" && matchCase v (getCaseValue b)) := by
  induction blocks with
  | nil => rfl
  | cons b rest ih =>
    by_cases h : (b.ntype == "case" && matchCase v (getCaseValue b)) = true
    · simp [findCaseLoop, List.find?, h]
    · have hf : (b.ntype == "case" && matchCase v (getCaseValue b)) = false := by
        simpa using h
      simp [findCaseLoop, List.find?, hf, ih]

theorem matchCase_eq_spec (e c : Value) : matchCase e c = specMatchChain e c := by
  unfold matchCase specMatchChain jsNumEq
  cases h1 : strictEq e c
  · cases h2 : (toStr e == toStr c)
    · cases h3 : toNum e with
      | none => cases h4 : toNum c <;> simp [h3, h4]
      | some a =>
        cases h4 : toNum c with
        | none => simp [h3, h4]
        | some b => by_cases hv : a = b <;> simp [h3, h4, hv]
    · simp
  · simp

/-- C2: switch branch selection.  For every switch node: (a) the match
predicate is exactly the spec's chain — strict equality, else string-form
equality, else numeric equality when both sides parse as numbers; (b) the
selected branch is the first matching `case` child in authoring order,
else the first `caseDefault` child, else none; (c) when nothing is
selected for the resolved expression value, the executor records a
`warn`-level log entry and runs no branch. -/
theorem c2_switch_selection :
    (∀ e c : Value, matchCase e c = specMatchChain e c) ∧
    (∀ (node : FlowNode) (v : Value),
       (findMatchingCase node v).1 = specSwitchSelect node v) ∧
    (∀ (node : FlowNode) (ctx : Ctx) (logs : List LogEntry),
       (findMatchingCase node
         (evaluateExpression (switchExpressionText node) ctx.vars)).1 = none →
       (⟨"warn", "没有找到匹配的分支"⟩ : LogEntry) ∈
         (switchExecute node ctx logs).2.2) := by
  refine ⟨matchCase_eq_spec, ?_, ?_⟩
  · intro node v
    have hcong : node.blocks.find?
        (fun b => b.ntype == "case" && matchCase v (getCaseValue b)) =
        node.blocks.find?
        (fun b => b.ntype == "case" && specMatchChain v (getCaseValue b)) :=
      find?_congr _ _ _ (fun b => by rw [matchCase_eq_spec])
    cases hb : node.blocks with
    | nil => simp [findMatchingCase, specSwitchSelect, hb]
    | cons x xs =>
      rw [hb] at hcong
      simp only [findMatchingCase, specSwitchSelect, hb,
        findCaseLoop_eq_find?, hcong, List.isEmpty_cons]
      cases hf1 : (x :: xs).find?
          (fun b => b.ntype == "case" && specMatchChain v (getCaseValue b)) with
      | some b => simp [hf1]
      | none =>
        cases hf2 : (x :: xs).find? (fun blk => blk.ntype == "caseDefault") with
        | some d => simp [hf1, hf2]
        | none => simp [hf1, hf2]
  · intro node ctx logs h
    rcases hfm : findMatchingCase node
      (evaluateExpression (switchExpressionText node) ctx.vars) with ⟨mc, eb⟩
    rw [hfm] at h
    simp only at h
    subst h
    simp [switchExecute, hfm, pushLog]

/-- Witness for C2 part (c): the spec's own example — cases `normal` and
`vip`, no default, variable `userType = "guest"` — selects nothing and the
execution log gains the warning. -/
theorem c2_switch_selection_witness :
    (findMatchingCase c2Switch
      (evaluateExpression (switchExpressionText c2Switch)
        ({ vars := [("userType", Value.vStr "guest")] } : Ctx).vars)).1 = none ∧
    (⟨"warn", "没有找到匹配的分支"⟩ : LogEntry) ∈
      (switchExecute c2Switch { vars := [("userType", Value.vStr "guest")] } []).2.2 :=
  ⟨rfl, c2_switch_selection.2.2 c2Switch
    { vars := [("userType", Value.vStr "guest")] } [] rfl⟩

theorem mapKind (l : List FlowNode) (t : String) :
    (match l.find? (fun (b : FlowNode) => b.ntype == t) with
     | some b => [b]
     | none => ([] : List FlowNode)).map FlowNode.ntype =
    if l.any (fun (b : FlowNode) => b.ntype == t) then [t] else [] := by
  cases hf : l.find? (fun (b : FlowNode) => b.ntype == t) with
  | none =>
    have hall := List.find?_eq_none.mp hf
    have hany : l.any (fun b => b.ntype == t) = false := by
      rw [Bool.eq_false_iff]
      intro hc
      rcases List.any_eq_true.mp hc with ⟨b, hb, hp⟩
      exact absurd hp (hall b hb)
    simp [hany]
  | some b =>
    have hp := List.find?_some hf
    have hmem := List.mem_of_find?_eq_some hf
    have hany : l.any (fun b => b.ntype == t) = true :=
      List.any_eq_true.mpr ⟨b, hmem, hp⟩
    have hbt : b.ntype = t := by simpa using hp
    simp [hany, hbt]

theorem agentFold_logs (comps : List FlowNode) (nid : String)
    (st : Option Value × Option Value × Option Value × List LogEntry) :
    (comps.foldl (agentComponentStep nid) st).2.2.2 =
      st.2.2.2 ++ comps.map
        (fun c => (⟨"info", "Agent执行组件: " ++ c.ntype⟩ : LogEntry)) := by
  induction comps generalizing st with
  | nil => simp
  | cons c rest ih =>
    obtain ⟨llm, memory, tools, lgs⟩ := st
    simp only [List.foldl_cons, List.map_cons]
    rw [ih]
    cases hc1 : c.ntype == "agentLLM" <;>
      cases hc2 : c.ntype == "agentMemory" <;>
        cases hc3 : c.ntype == "agentTools" <;>
          simp [agentComponentStep, pushLog, hc1, hc2, hc3]

/-- C5: for every agent node, the canonical execution order visits the
first `agentLLM`, then the first `agentMemory`, then the first
`agentTools` child — regardless of authoring order, skipping any absent
kind — and the agent executor's per-component log trail shows exactly
that sequence of phases. -/
theorem c5_agent_fixed_order :
    (∀ node : FlowNode, node.ntype = "agent" →
       (getExecutionOrder node).map FlowNode.ntype =
         canonicalAgentOrder.filter
           (fun t => node.blocks.any (fun b => b.ntype == t))) ∧
    (∀ (node : FlowNode) (ctx : Ctx) (logs : List LogEntry),
       (agentExecute node ctx logs).2.2 =
         logs ++ [⟨"info", "执行Agent节点"⟩] ++
         (getExecutionOrder node).map
           (fun c => ⟨"info", "Agent执行组件: " ++ c.ntype⟩) ++
         [⟨"info", "Agent节点执行完成"⟩]) := by
  constructor
  · intro node h
    have hred : getExecutionOrder node = addAgentExecutionOrder node := by
      simp [getExecutionOrder, h]
    rw [hred]
    unfold addAgentExecutionOrder canonicalAgentOrder
    rw [List.map_append, List.map_append, mapKind, mapKind, mapKind]
    cases h1 : node.blocks.any (fun b => b.ntype == "agentLLM") <;>
      cases h2 : node.blocks.any (fun b => b.ntype == "agentMemory") <;>
        cases h3 : node.blocks.any (fun b => b.ntype == "agentTools") <;>
          simp [List.filter, h1, h2, h3]
  · intro node ctx logs
    rcases hfold : (getExecutionOrder node).foldl (agentComponentStep node.id)
        (none, none, none, pushLog logs "info" "执行Agent节点") with
      ⟨llm, memory, tools, lgs⟩
    have hlogs := agentFold_logs (getExecutionOrder node) node.id
      (none, none, none, pushLog logs "info" "执行Agent节点")
    rw [hfold] at hlogs
    simp only at hlogs
    simp only [pushLog] at hfold hlogs
    simp [agentExecute, hfold, hlogs, pushLog, List.append_assoc]

/-- Witness for C5: the spec's example — components authored as Tools,
LLM, Memory — still execute as LLM, Memory, Tools. -/
theorem c5_agent_fixed_order_witness :
    c5Agent.ntype = "agent" ∧
    (getExecutionOrder c5Agent).map FlowNode.ntype =
      ["agentLLM", "agentMemory", "agentTools"] :=
  ⟨rfl, (c5_agent_fixed_order.1 c5Agent rfl).trans rfl⟩

/-- C1: evaluation of the claim at its failing input.  In `c1Doc` the
switch handler selects and runs only `case1` (the switch's recorded result
reports `branch: "case1"`), yet the non-taken branch `case2` still appears
as a key in `results` with a recorded execution — because `executeNode`
unconditionally walks `node.blocks` after the control-flow executor
already walked the taken branch (flow-engine.ts lines 146-150 / 693-698).
The claim that nodes on a non-taken switch branch never appear in
`results` is therefore false on the code. -/
theorem c1_nontaken_branch_in_results :
    resultDataField (executeFlowV1 10 c1Doc []).results "switch1" "branch" =
      .vStr "case1" ∧
    (alGet (executeFlowV1 10 c1Doc []).results "case2").isSome = true ∧
    resultSuccess (executeFlowV1 10 c1Doc []).results "case2" = some true :=
  ⟨rfl, rfl, rfl⟩

/-- C3: evaluation of the claim at its failing input.  In `c3Doc` the loop
iterates a two-item array with a `breakLoop` body; the break fires during
iteration 0 (and again during iteration 1: the log records `Loop中断`
twice), yet iteration 1 still runs (`Loop迭代 2/2` is logged and the loop
reports `iterations: 2`), because the source's `break` exits only the
inner per-block loop, not the outer per-item loop.  The claim that no
iteration after the breaking one runs is therefore false on the code. -/
theorem c3_break_does_not_stop_iteration :
    countLog (executeFlowV1 10 c3Doc []).logs "Loop中断" = 2 ∧
    countLog (executeFlowV1 10 c3Doc []).logs "Loop迭代 2/2" = 1 ∧
    resultDataField (executeFlowV1 10 c3Doc []).results "loop1" "iterations" =
      .vNum 2 :=
  ⟨rfl, rfl, rfl⟩

/-- C4: evaluation of the claim at its failing input.  In `c4Doc` the try
branch contains a node that fails (`badLoop` records `success: false`),
and a catch branch with a guard that is constantly true exists — yet the
try/catch node reports `executed: "try"` with `success: true` and the
original failure does not propagate: `executeNode` converts every child
failure into a returned failed result instead of throwing, so
`executeTryCatchNode`'s catch arm (the guard-evaluation chain over
alternates, flow-engine.ts lines 458-477) is unreachable. -/
theorem c4_trycatch_guard_chain_unreachable :
    resultSuccess (executeFlowV1 10 c4Doc []).results "badLoop" = some false ∧
    resultDataField (executeFlowV1 10 c4Doc []).results "tc1" "executed" =
      .vStr "try" ∧
    resultSuccess (executeFlowV1 10 c4Doc []).results "tc1" = some true :=
  ⟨rfl, rfl, rfl⟩

theorem execChildrenFold_stack (exec : ExecNode)
    (h : ∀ n c l, ((exec n c l).2.1).loopStack = c.loopStack) :
    ∀ (bs : List FlowNode) (st : Ctx × List LogEntry),
      ((execChildrenFold exec bs st).1).loopStack = st.1.loopStack := by
  intro bs
  induction bs with
  | nil => intro st; rfl
  | cons b rest ih =>
    intro st
    show ((execChildrenFold exec rest
      ((exec b st.1 st.2).2.1, (exec b st.1 st.2).2.2)).1).loopStack =
      st.1.loopStack
    rw [ih ((exec b st.1 st.2).2.1, (exec b st.1 st.2).2.2)]
    exact h b st.1 st.2

theorem agentV1_stack (exec : ExecNode)
    (h : ∀ n c l, ((exec n c l).2.1).loopStack = c.loopStack)
    (node : FlowNode) (ctx : Ctx) (logs : List LogEntry) :
    ((executeAgentNodeV1 exec node ctx logs).2.1).loopStack = ctx.loopStack := by
  unfold executeAgentNodeV1
  suffices hgen : ∀ (bs : List FlowNode)
      (st : List (String × Value) × Ctx × List LogEntry),
      ((bs.foldl (fun st child =>
          (alSet st.1 child.ntype ((exec child st.2.1 st.2.2).1.data),
           (exec child st.2.1 st.2.2).2.1,
           (exec child st.2.1 st.2.2).2.2)) st).2.1).loopStack =
        st.2.1.loopStack by
    simpa using hgen node.blocks ([], ctx, pushLog logs "info" "执行Agent节点")
  intro bs
  induction bs with
  | nil => intro st; rfl
  | cons b rest ih =>
    intro st
    rw [List.foldl_cons, ih]
    exact h b st.2.1 st.2.2

theorem switchLoopV1_stack (exec : ExecNode)
    (h : ∀ n c l, ((exec n c l).2.1).loopStack = c.loopStack) :
    ∀ (bs : List FlowNode) (ctx : Ctx) (logs : List LogEntry),
      ((switchLoopV1 exec bs ctx logs).2.1).loopStack = ctx.loopStack := by
  intro bs
  induction bs with
  | nil => intro ctx logs; rfl
  | cons b rest ih =>
    intro ctx logs
    simp only [switchLoopV1]
    by_cases hc : (b.ntype == "case") = true
    · rw [if_pos hc]
      by_cases he : evaluateCondition b ctx.vars = true
      · rw [if_pos he]
        exact h b ctx _
      · rw [if_neg he]
        exact ih ctx logs
    · rw [if_neg hc]
      exact ih ctx logs

theorem executeSwitchNodeV1_stack (exec : ExecNode)
    (h : ∀ n c l, ((exec n c l).2.1).loopStack = c.loopStack)
    (node : FlowNode) (ctx : Ctx) (logs : List LogEntry) :
    ((executeSwitchNodeV1 exec node ctx logs).2.1).loopStack = ctx.loopStack := by
  unfold executeSwitchNodeV1
  rcases hsl : switchLoopV1 exec node.blocks ctx
      (pushLog logs "info" "执行Switch节点") with ⟨res, ctx1, logs1⟩
  have h1 : ctx1.loopStack = ctx.loopStack := by
    have := switchLoopV1_stack exec h node.blocks ctx
      (pushLog logs "info" "执行Switch节点")
    rw [hsl] at this
    exact this
  cases res with
  | some v => simpa [hsl] using h1
  | none =>
    cases hd : node.blocks.find? (fun b => b.ntype == "caseDefault") with
    | some d =>
      simp only [hsl, hd]
      rw [h d ctx1 (pushLog logs1 "info" "执行Default分支")]
      exact h1
    | none => simpa [hsl, hd] using h1

theorem loopBlocksV1_stack (exec : ExecNode)
    (h : ∀ n c l, ((exec n c l).2.1).loopStack = c.loopStack) :
    ∀ (bs : List FlowNode) (ctx : Ctx) (logs : List LogEntry),
      ((loopBlocksV1 exec bs ctx logs).1).loopStack = ctx.loopStack := by
  intro bs
  induction bs with
  | nil => intro ctx logs; rfl
  | cons b rest ih =>
    intro ctx logs
    simp only [loopBlocksV1]
    by_cases hb : shouldBreakLoop b = true
    · rw [if_pos hb]
      exact h b ctx logs
    · rw [if_neg hb, ih]
      exact h b ctx logs

theorem loopItemsV1_stack (exec : ExecNode)
    (h : ∀ n c l, ((exec n c l).2.1).loopStack = c.loopStack)
    (blocks : List FlowNode) (total : Nat) :
    ∀ (items : List Value) (i : Nat) (ctx : Ctx) (logs : List LogEntry)
      (results : List Value),
      ((loopItemsV1 exec blocks total items i ctx logs results).1).loopStack =
        ctx.loopStack := by
  intro items
  induction items with
  | nil => intro i ctx logs results; rfl
  | cons item rest ih =>
    intro i ctx logs results
    simp only [loopItemsV1]
    rw [ih]
    exact (loopBlocksV1_stack exec h blocks _ _).trans rfl

theorem executeLoopNodeV1_stack (exec : ExecNode)
    (h : ∀ n c l, ((exec n c l).2.1).loopStack = c.loopStack)
    (node : FlowNode) (ctx : Ctx) (logs : List LogEntry) :
    ((executeLoopNodeV1 exec node ctx logs).2.1).loopStack = ctx.loopStack := by
  unfold executeLoopNodeV1
  split
  · rfl
  · split
    · simp only
      rw [loopItemsV1_stack exec h]
      simp
    · rfl

theorem executeIfNodeV1_stack (exec : ExecNode)
    (h : ∀ n c l, ((exec n c l).2.1).loopStack = c.loopStack)
    (node : FlowNode) (ctx : Ctx) (logs : List LogEntry) :
    ((executeIfNodeV1 exec node ctx logs).2.1).loopStack = ctx.loopStack := by
  unfold executeIfNodeV1
  cases hc : evaluateCondition node ctx.vars <;>
    cases ht : node.blocks.find? (fun b => b.data.title == some "true") <;>
      cases hf : node.blocks.find? (fun b => b.data.title == some "false") <;>
        simp [hc, ht, hf, h]

theorem executeTryCatchNodeV1_stack (exec : ExecNode)
    (h : ∀ n c l, ((exec n c l).2.1).loopStack = c.loopStack)
    (node : FlowNode) (ctx : Ctx) (logs : List LogEntry) :
    ((executeTryCatchNodeV1 exec node ctx logs).2.1).loopStack = ctx.loopStack := by
  unfold executeTryCatchNodeV1
  cases htb : node.blocks.find? (fun b => b.ntype == "tryBlock") with
  | none => rfl
  | some tb => simpa using h tb ctx _

theorem executeDispatchV1_stack (exec : ExecNode)
    (h : ∀ n c l, ((exec n c l).2.1).loopStack = c.loopStack)
    (node : FlowNode) (ctx : Ctx) (logs : List LogEntry) :
    ((executeDispatchV1 exec node ctx logs).2.1).loopStack = ctx.loopStack := by
  unfold executeDispatchV1
  by_cases h1 : (node.ntype == "start") = true
  · simp [h1, executeStartNodeV1]
  by_cases h2 : (node.ntype == "end") = true
  · simp [h1, h2, executeEndNodeV1]
  by_cases h3 : (node.ntype == "llm") = true
  · simp [h1, h2, h3, executeLLMNodeV1]
  by_cases h4 : (node.ntype == "agent") = true
  · have hs := agentV1_stack exec h node ctx logs
    simp only [h1, h2, h3, h4, Bool.false_eq_true, if_false, if_true]
    simpa using hs
  by_cases h5 : (node.ntype == "switch") = true
  · have hs := executeSwitchNodeV1_stack exec h node ctx logs
    simp only [h1, h2, h3, h4, h5, Bool.false_eq_true, if_false, if_true]
    simpa using hs
  by_cases h6 : (node.ntype == "loop") = true
  · have hs := executeLoopNodeV1_stack exec h node ctx logs
    simp only [h1, h2, h3, h4, h5, h6, Bool.false_eq_true, if_false, if_true]
    exact hs
  by_cases h7 : (node.ntype == "if") = true
  · have hs := executeIfNodeV1_stack exec h node ctx logs
    simp only [h1, h2, h3, h4, h5, h6, h7, Bool.false_eq_true, if_false,
      if_true]
    simpa using hs
  by_cases h8 : (node.ntype == "tryCatch") = true
  · have hs := executeTryCatchNodeV1_stack exec h node ctx logs
    simp only [h1, h2, h3, h4, h5, h6, h7, h8, Bool.false_eq_true, if_false,
      if_true]
    exact hs
  by_cases h9 : (node.ntype == "action") = true
  · simp [h1, h2, h3, h4, h5, h6, h7, h8, h9, executeActionNodeV1]
  · simp [h1, h2, h3, h4, h5, h6, h7, h8, h9]

theorem executeNodeStepV1_stack (exec : ExecNode)
    (h : ∀ n c l, ((exec n c l).2.1).loopStack = c.loopStack)
    (node : FlowNode) (ctx : Ctx) (logs : List LogEntry) :
    ((executeNodeStepV1 exec node ctx logs).2.1).loopStack = ctx.loopStack := by
  unfold executeNodeStepV1
  rcases hd : executeDispatchV1 exec node { ctx with currentNode := some node.id }
      (pushLog logs "info" ("执行节点: " ++ node.ntype)) with ⟨res, ctx1, logs1⟩
  have h1 : ctx1.loopStack = ctx.loopStack := by
    have := executeDispatchV1_stack exec h node
      { ctx with currentNode := some node.id }
      (pushLog logs "info" ("执行节点: " ++ node.ntype))
    rw [hd] at this
    exact this
  cases res with
  | ok v =>
    simp only [hd]
    rw [execChildrenFold_stack exec h]
    simpa [setResult] using h1
  | error msg =>
    simpa [hd, setResult] using h1

theorem executeNodeV1_stack (fuel : Nat) :
    ∀ (n : FlowNode) (c : Ctx) (l : List LogEntry),
      ((executeNodeV1 fuel n c l).2.1).loopStack = c.loopStack := by
  induction fuel with
  | zero => intro n c l; rfl
  | succ fuel ih =>
    intro n c l
    exact executeNodeStepV1_stack (executeNodeV1 fuel) ih n c l

/-- C6: for every loop node execution that gets past resolving its
iterable (so the `LoopContext` is pushed on entry — the claim's premise),
whatever the body does — complete normally, signal a break, or record
failures — the `finally` of `executeLoopNode` leaves the loop stack
exactly as it was before the node and removes both reserved variables
`__loop_index` and `__loop_item` from the variable mapping.  (Failures
inside the body cannot escape as exceptions: `executeNode` converts them
to failed results, so the `finally` always runs.) -/
theorem c6_loop_cleanup (fuel : Nat) (node : FlowNode) (ctx : Ctx)
    (logs : List LogEntry) (bf : InputValue) (items : List Value)
    (hbf : node.data.batchFor = some bf)
    (hitems : resolveInputValue bf ctx.vars = .vArr items) :
    ((executeLoopNodeV1 (executeNodeV1 fuel) node ctx logs).2.1).loopStack =
      ctx.loopStack ∧
    alGet ((executeLoopNodeV1 (executeNodeV1 fuel) node ctx logs).2.1).vars
      "__loop_index" = none ∧
    alGet ((executeLoopNodeV1 (executeNodeV1 fuel) node ctx logs).2.1).vars
      "__loop_item" = none := by
  refine ⟨executeLoopNodeV1_stack (executeNodeV1 fuel)
    (executeNodeV1_stack fuel) node ctx logs, ?_, ?_⟩
  · unfold executeLoopNodeV1
    simp only [hbf, hitems, pushLog]
    rw [alGet_alDel_ne _ _ _ (by decide)]
    exact alGet_alDel_self _ _
  · unfold executeLoopNodeV1
    simp only [hbf, hitems, pushLog]
    exact alGet_alDel_self _ _

/-- Witness for C6 at a concrete loop node over `[1]` with empty body. -/
theorem c6_loop_cleanup_witness :
    (FlowNode.node "lp" "loop"
        { batchFor := some (.constVal (.vArr [.vNum 1])) } []).data.batchFor =
      some (.constVal (.vArr [.vNum 1])) ∧
    resolveInputValue (.constVal (.vArr [.vNum 1])) (({} : Ctx).vars) =
      .vArr [.vNum 1] ∧
    ((executeLoopNodeV1 (executeNodeV1 3)
        (.node "lp" "loop"
          { batchFor := some (.constVal (.vArr [.vNum 1])) } [])
        {} []).2.1).loopStack = ({} : Ctx).loopStack ∧
    alGet ((executeLoopNodeV1 (executeNodeV1 3)
        (.node "lp" "loop"
          { batchFor := some (.constVal (.vArr [.vNum 1])) } [])
        {} []).2.1).vars "__loop_index" = none ∧
    alGet ((executeLoopNodeV1 (executeNodeV1 3)
        (.node "lp" "loop"
          { batchFor := some (.constVal (.vArr [.vNum 1])) } [])
        {} []).2.1).vars "__loop_item" = none :=
  ⟨rfl, rfl,
   (c6_loop_cleanup 3
     (.node "lp" "loop" { batchFor := some (.constVal (.vArr [.vNum 1])) } [])
     {} [] (.constVal (.vArr [.vNum 1])) [.vNum 1] rfl rfl).1,
   (c6_loop_cleanup 3
     (.node "lp" "loop" { batchFor := some (.constVal (.vArr [.vNum 1])) } [])
     {} [] (.constVal (.vArr [.vNum 1])) [.vNum 1] rfl rfl).2.1,
   (c6_loop_cleanup 3
     (.node "lp" "loop" { batchFor := some (.constVal (.vArr [.vNum 1])) } [])
     {} [] (.constVal (.vArr [.vNum 1])) [.vNum 1] rfl rfl).2.2⟩

theorem validateFold_mono (allNodes : List FlowNode) :
    ∀ (nodes : List FlowNode) (acc : List String × List String)
      (e : String),
      (e ∈ acc.1 → e ∈ (nodes.foldl
        (fun (acc : List String × List String) n =>
          (acc.1 ++ (validateNodeContribution allNodes n).1,
           acc.2 ++ (validateNodeContribution allNodes n).2)) acc).1) ∧
      (e ∈ acc.2 → e ∈ (nodes.foldl
        (fun (acc : List String × List String) n =>
          (acc.1 ++ (validateNodeContribution allNodes n).1,
           acc.2 ++ (validateNodeContribution allNodes n).2)) acc).2) := by
  intro nodes
  induction nodes with
  | nil => intro acc e; exact ⟨id, id⟩
  | cons m rest ih =>
    intro acc e
    constructor
    · intro he
      exact (ih _ e).1 (List.mem_append_left _ he)
    · intro he
      exact (ih _ e).2 (List.mem_append_left _ he)

theorem validateFold_mem (allNodes : List FlowNode) :
    ∀ (nodes : List FlowNode) (acc : List String × List String)
      (n : FlowNode), n ∈ nodes →
      (∀ e ∈ (validateNodeContribution allNodes n).1,
        e ∈ (nodes.foldl
          (fun (acc : List String × List String) m =>
            (acc.1 ++ (validateNodeContribution allNodes m).1,
             acc.2 ++ (validateNodeContribution allNodes m).2)) acc).1) ∧
      (∀ w ∈ (validateNodeContribution allNodes n).2,
        w ∈ (nodes.foldl
          (fun (acc : List String × List String) m =>
            (acc.1 ++ (validateNodeContribution allNodes m).1,
             acc.2 ++ (validateNodeContribution allNodes m).2)) acc).2) := by
  intro nodes
  induction nodes with
  | nil => intro acc n hn; exact absurd hn (List.not_mem_nil n)
  | cons m rest ih =>
    intro acc n hn
    rcases List.mem_cons.mp hn with h | h
    · subst h
      constructor
      · intro e he
        exact (validateFold_mono allNodes rest _ e).1
          (List.mem_append_right _ he)
      · intro w hw
        exact (validateFold_mono allNodes rest _ w).2
          (List.mem_append_right _ hw)
    · exact ih _ n h

/-- C8 counterexample: the claim says `validateFlowDocument` checks id
uniqueness across the WHOLE nested tree and invokes the executor's
validate for EVERY node of the document.  On `c8Doc`, the nested child
duplicates the top-level id (the whole-tree id list has the duplicate
`a`), yet the report is clean — and the nested `llm` node's own
validation warnings never surface in the report. -/
theorem c8_counterexample :
    (validateFlowDocument c8Doc).valid = true ∧
    (validateFlowDocument c8Doc).errors = [] ∧
    duplicateIds (docTreeIds c8Doc) = ["a"] ∧
    (validateFlowDocument c8Doc).warnings = ["建议添加结束节点 (end)"] :=
  ⟨rfl, rfl, rfl, rfl⟩

/-- C8 (amended): `validateFlowDocument` performs its structural checks on
the TOP-LEVEL node list only — a rejected empty list, and the aggregate
`valid` flag reflecting exactly the collected errors — and invokes the
matching executor's `validate` with the top-level node list for every
top-level node, folding that node's contribution (errors only when the
node's own report is invalid, warnings always) into one aggregated
report, without executing any node; nested nodes are not independently
validated and nested duplicate ids are not detected. -/
theorem c8_validate_characterization :
    (∀ doc : FlowDocument,
       (validateFlowDocument doc).valid =
         (validateFlowDocument doc).errors.isEmpty) ∧
    (∀ vars : Dict,
       validateFlowDocument { nodes := [], vars := vars } =
         { valid := false, errors := ["流程必须至少包含一个节点"],
           warnings := [] }) ∧
    (∀ (doc : FlowDocument) (n : FlowNode), n ∈ doc.nodes →
       ∀ e ∈ (validateNodeContribution doc.nodes n).1,
         e ∈ (validateFlowDocument doc).errors) ∧
    (∀ (doc : FlowDocument) (n : FlowNode), n ∈ doc.nodes →
       ∀ w ∈ (validateNodeContribution doc.nodes n).2,
         w ∈ (validateFlowDocument doc).warnings) := by
  refine ⟨?_, fun vars => rfl, ?_, ?_⟩
  · intro doc
    unfold validateFlowDocument
    split
    · rfl
    · rfl
  · intro doc n hn e he
    have hne : doc.nodes.isEmpty = false := by
      cases hd : doc.nodes with
      | nil => rw [hd] at hn; exact absurd hn (List.not_mem_nil n)
      | cons a l => rfl
    unfold validateFlowDocument
    rw [hne]
    simp only [Bool.false_eq_true, if_false]
    exact List.mem_append_left _
      ((validateFold_mem doc.nodes doc.nodes ([], []) n hn).1 e he)
  · intro doc n hn w hw
    have hne : doc.nodes.isEmpty = false := by
      cases hd : doc.nodes with
      | nil => rw [hd] at hn; exact absurd hn (List.not_mem_nil n)
      | cons a l => rfl
    unfold validateFlowDocument
    rw [hne]
    simp only [Bool.false_eq_true, if_false]
    exact List.mem_append_left _ (List.mem_append_left _
      ((validateFold_mem doc.nodes doc.nodes ([], []) n hn).2 w hw))

/-- Witness for C8's amended theorem: in `c8WitDoc` the single top-level
node's own validation fails (missing id), and its prefixed error appears
in the aggregated report. -/
theorem c8_validate_characterization_witness :
    (FlowNode.node "" "llm" {} []) ∈ c8WitDoc.nodes ∧
    "节点 : 节点缺少id" ∈
      (validateNodeContribution c8WitDoc.nodes (.node "" "llm" {} [])).1 ∧
    "节点 : 节点缺少id" ∈ (validateFlowDocument c8WitDoc).errors :=
  ⟨List.mem_singleton.mpr rfl,
   List.mem_singleton.mpr rfl,
   c8_validate_characterization.2.2.1 c8WitDoc (.node "" "llm" {} [])
     (List.mem_singleton.mpr rfl) _ (List.mem_singleton.mpr rfl)⟩

/-- C9: `validateFlowDocument` is pure and deterministic.  The faithful
translation of the method contains no write to the engine object (its
registry, threaded here as explicit state, comes back untouched), no
write to the document, and no dependence on the execution state — the
document's own variable mapping included — so two calls on the same
document return identical reports. -/
theorem c9_validate_pure :
    (∀ (doc : FlowDocument) (registryState : List String),
       (validateFlowDocumentSt doc registryState).2 = registryState) ∧
    (∀ (doc : FlowDocument) (registryState : List String),
       (validateFlowDocumentSt doc registryState).1 =
         (validateFlowDocumentSt doc
           ((validateFlowDocumentSt doc registryState).2)).1) ∧
    (∀ (nodes : List FlowNode) (vars vars' : Dict),
       validateFlowDocument { nodes := nodes, vars := vars } =
         validateFlowDocument { nodes := nodes, vars := vars' }) :=
  ⟨fun _ _ => rfl, fun _ _ => rfl, fun _ _ _ => rfl⟩

theorem breakFlagSet_alSet_ne (vars : Dict) (k : String) (v : Value)
    (h : k ≠ "__break_loop__") :
    breakFlagSet (alSet vars k v) = breakFlagSet vars := by
  unfold breakFlagSet
  rw [alGet_alSet_ne vars k _ v (Ne.symm h)]

theorem breakFlagSet_alDel_ne (vars : Dict) (k : String)
    (h : k ≠ "__break_loop__") :
    breakFlagSet (alDel vars k) = breakFlagSet vars := by
  unfold breakFlagSet
  rw [alGet_alDel_ne vars k _ (Ne.symm h)]

theorem breakFlagSet_alSet_self (vars : Dict) :
    breakFlagSet (alSet vars "__break_loop__" (.vBool true)) = true := by
  unfold breakFlagSet
  rw [alGet_alSet_self]
  rfl

theorem hasBreakResult_alSet (rs : List (String × NodeExecutionResult))
    (id : String) (r : NodeExecutionResult)
    (h : hasBreakResult (alSet rs id r) = true) :
    (r.nodeType == "breakLoop") = true ∨ hasBreakResult rs = true := by
  simp only [hasBreakResult, List.any_eq_true] at h ⊢
  obtain ⟨q, hq, hbq⟩ := h
  rcases mem_alSet rs id r q hq with h1 | h2
  · subst h1
    exact Or.inl hbq
  · exact Or.inr ⟨q, h2, hbq⟩

theorem hasBreak_setResult_imp (rs : List (String × NodeExecutionResult))
    (id : String) (r : NodeExecutionResult)
    (hr : (r.nodeType == "breakLoop") = false)
    (h : hasBreakResult (alSet rs id r) = true) :
    hasBreakResult rs = true := by
  rcases hasBreakResult_alSet rs id r h with h1 | h2
  · rw [hr] at h1
    exact absurd h1 Bool.false_ne_true
  · exact h2

theorem breakFlag_seedOutputs (props : List (String × Option Value))
    (vars : Dict) (h : props.all (fun p => p.1 != "__break_loop__") = true) :
    breakFlagSet (seedOutputDefaults props vars) = breakFlagSet vars := by
  induction props generalizing vars with
  | nil => rfl
  | cons p rest ih =>
    simp only [List.all_cons, Bool.and_eq_true] at h
    obtain ⟨hp, hrest⟩ := h
    rcases hd : p.2 with _ | d
    · have he : seedOutputDefaults (p :: rest) vars =
          seedOutputDefaults rest vars := by
        simp only [seedOutputDefaults, List.foldl_cons, hd]
      rw [he, ih vars hrest]
    · have he : seedOutputDefaults (p :: rest) vars =
          seedOutputDefaults rest (alSet vars p.1 d) := by
        simp only [seedOutputDefaults, List.foldl_cons, hd]
      rw [he, ih _ hrest]
      exact breakFlagSet_alSet_ne vars p.1 d (by simpa using hp)

theorem loopIterFold_parts (total : Nat) (items : List Value)
    (st : Ctx × List LogEntry × Nat) :
    (items.foldl (loopIterStep total) st).1.nodeResults =
      st.1.nodeResults ∧
    breakFlagSet (items.foldl (loopIterStep total) st).1.vars =
      breakFlagSet st.1.vars := by
  induction items generalizing st with
  | nil => exact ⟨rfl, rfl⟩
  | cons item rest ih =>
    obtain ⟨c, lgs, i⟩ := st
    simp only [List.foldl_cons]
    refine ⟨((ih _).1).trans rfl, ((ih _).2).trans ?_⟩
    show breakFlagSet (alSet (alSet c.vars "__loop_index" (.vNum (Int.ofNat i)))
      "__loop_item" item) = breakFlagSet c.vars
    rw [breakFlagSet_alSet_ne _ _ _ (by decide),
        breakFlagSet_alSet_ne _ _ _ (by decide)]

theorem shadowFree_of_mem (l : List FlowNode)
    (h : shadowFreeList l = true) (n : FlowNode) (hn : n ∈ l) :
    shadowFree n = true := by
  induction l with
  | nil => cases hn
  | cons b rest ih =>
    simp only [shadowFreeList, Bool.and_eq_true] at h
    rcases List.mem_cons.mp hn with h1 | h2
    · exact h1 ▸ h.1
    · exact ih h.2 h2

theorem shadowFreeList_filter (l : List FlowNode) (p : FlowNode → Bool)
    (h : shadowFreeList l = true) :
    shadowFreeList (l.filter p) = true := by
  induction l with
  | nil => rfl
  | cons b rest ih =>
    simp only [shadowFreeList, Bool.and_eq_true] at h
    rw [List.filter_cons]
    by_cases hp : p b = true
    · simp only [hp, if_true, shadowFreeList, Bool.and_eq_true]
      exact ⟨h.1, ih h.2⟩
    · simp only [hp, if_false]
      exact ih h.2

theorem startExecute_breakInv (node : FlowNode) (ctx : Ctx)
    (logs : List LogEntry) (hsf : dataShadowFree node.data = true)
    (hinv : ctxBreakInv ctx) :
    ctxBreakInv (startExecute node ctx logs).2.1 ∧
    (breakFlagSet ctx.vars = true →
      breakFlagSet (startExecute node ctx logs).2.1.vars = true) := by
  have hv : breakFlagSet (startExecute node ctx logs).2.1.vars =
      breakFlagSet ctx.vars := by
    show breakFlagSet (seedOutputDefaults node.data.outputsProps ctx.vars) = _
    exact breakFlag_seedOutputs _ _ hsf
  exact ⟨fun h => hv.trans (hinv h), fun hf => hv.trans hf⟩

theorem endExecute_breakInv (node : FlowNode) (ctx : Ctx)
    (logs : List LogEntry) (hinv : ctxBreakInv ctx) :
    ctxBreakInv (endExecute node ctx logs).2.1 ∧
    (breakFlagSet ctx.vars = true →
      breakFlagSet (endExecute node ctx logs).2.1.vars = true) :=
  ⟨hinv, fun hf => hf⟩

theorem llmExecute_breakInv (node : FlowNode) (ctx : Ctx)
    (logs : List LogEntry) (hinv : ctxBreakInv ctx) :
    ctxBreakInv (llmExecute node ctx logs).2.1 ∧
    (breakFlagSet ctx.vars = true →
      breakFlagSet (llmExecute node ctx logs).2.1.vars = true) := by
  have hv : breakFlagSet (llmExecute node ctx logs).2.1.vars =
      breakFlagSet ctx.vars := by
    show breakFlagSet (alSet ctx.vars "llm_result" _) = _
    exact breakFlagSet_alSet_ne _ _ _ (by decide)
  exact ⟨fun h => hv.trans (hinv h), fun hf => hv.trans hf⟩

theorem actionExecute_breakInv (node : FlowNode) (ctx : Ctx)
    (logs : List LogEntry) (hinv : ctxBreakInv ctx) :
    ctxBreakInv (actionExecute node ctx logs).2.1 ∧
    (breakFlagSet ctx.vars = true →
      breakFlagSet (actionExecute node ctx logs).2.1.vars = true) :=
  ⟨hinv, fun hf => hf⟩

theorem ifExecute_breakInv (node : FlowNode) (ctx : Ctx)
    (logs : List LogEntry) (hinv : ctxBreakInv ctx) :
    ctxBreakInv (ifExecute node ctx logs).2.1 ∧
    (breakFlagSet ctx.vars = true →
      breakFlagSet (ifExecute node ctx logs).2.1.vars = true) :=
  ⟨hinv, fun hf => hf⟩

theorem caseExecute_breakInv (node : FlowNode) (ctx : Ctx)
    (logs : List LogEntry) (hinv : ctxBreakInv ctx) :
    ctxBreakInv (caseExecute node ctx logs).2.1 ∧
    (breakFlagSet ctx.vars = true →
      breakFlagSet (caseExecute node ctx logs).2.1.vars = true) :=
  ⟨fun h => hinv (hasBreak_setResult_imp ctx.nodeResults node.id _ (by rfl) h),
   fun hf => hf⟩

theorem caseDefaultExecute_breakInv (node : FlowNode) (ctx : Ctx)
    (logs : List LogEntry) (hinv : ctxBreakInv ctx) :
    ctxBreakInv (caseDefaultExecute node ctx logs).2.1 ∧
    (breakFlagSet ctx.vars = true →
      breakFlagSet (caseDefaultExecute node ctx logs).2.1.vars = true) :=
  ⟨fun h => hinv (hasBreak_setResult_imp ctx.nodeResults node.id _ (by rfl) h),
   fun hf => hf⟩

theorem ifBlockExecute_breakInv (node : FlowNode) (ctx : Ctx)
    (logs : List LogEntry) (hinv : ctxBreakInv ctx) :
    ctxBreakInv (ifBlockExecute node ctx logs).2.1 ∧
    (breakFlagSet ctx.vars = true →
      breakFlagSet (ifBlockExecute node ctx logs).2.1.vars = true) :=
  ⟨fun h => hinv (hasBreak_setResult_imp ctx.nodeResults node.id _ (by rfl) h),
   fun hf => hf⟩

theorem tryBlockExecute_breakInv (node : FlowNode) (ctx : Ctx)
    (logs : List LogEntry) (hinv : ctxBreakInv ctx) :
    ctxBreakInv (tryBlockExecute node ctx logs).2.1 ∧
    (breakFlagSet ctx.vars = true →
      breakFlagSet (tryBlockExecute node ctx logs).2.1.vars = true) :=
  ⟨fun h => hinv (hasBreak_setResult_imp ctx.nodeResults node.id _ (by rfl) h),
   fun hf => hf⟩

theorem catchBlockExecute_breakInv (node : FlowNode) (ctx : Ctx)
    (logs : List LogEntry) (hinv : ctxBreakInv ctx) :
    ctxBreakInv (catchBlockExecute node ctx logs).2.1 ∧
    (breakFlagSet ctx.vars = true →
      breakFlagSet (catchBlockExecute node ctx logs).2.1.vars = true) :=
  ⟨fun h => hinv (hasBreak_setResult_imp ctx.nodeResults node.id _ (by rfl) h),
   fun hf => hf⟩

theorem memoryExecute_breakInv (node : FlowNode) (ctx : Ctx)
    (logs : List LogEntry) (hinv : ctxBreakInv ctx) :
    ctxBreakInv (memoryExecute node ctx logs).2.1 ∧
    (breakFlagSet ctx.vars = true →
      breakFlagSet (memoryExecute node ctx logs).2.1.vars = true) :=
  ⟨fun h => hinv (hasBreak_setResult_imp ctx.nodeResults node.id _ (by rfl) h),
   fun hf => hf⟩

theorem toolExecute_breakInv (node : FlowNode) (ctx : Ctx)
    (logs : List LogEntry) (hinv : ctxBreakInv ctx) :
    ctxBreakInv (toolExecute node ctx logs).2.1 ∧
    (breakFlagSet ctx.vars = true →
      breakFlagSet (toolExecute node ctx logs).2.1.vars = true) :=
  ⟨fun h => hinv (hasBreak_setResult_imp ctx.nodeResults node.id _ (by rfl) h),
   fun hf => hf⟩

theorem agentExecute_breakInv (node : FlowNode) (ctx : Ctx)
    (logs : List LogEntry) (hinv : ctxBreakInv ctx) :
    ctxBreakInv (agentExecute node ctx logs).2.1 ∧
    (breakFlagSet ctx.vars = true →
      breakFlagSet (agentExecute node ctx logs).2.1.vars = true) :=
  ⟨fun h => hinv (hasBreak_setResult_imp ctx.nodeResults node.id _ (by rfl) h),
   fun hf => hf⟩

theorem agentLLMExecute_breakInv (node : FlowNode) (ctx : Ctx)
    (logs : List LogEntry) (hinv : ctxBreakInv ctx) :
    ctxBreakInv (agentLLMExecute node ctx logs).2.1 ∧
    (breakFlagSet ctx.vars = true →
      breakFlagSet (agentLLMExecute node ctx logs).2.1.vars = true) :=
  ⟨fun h => hinv (hasBreak_setResult_imp ctx.nodeResults node.id _ (by rfl) h),
   fun hf => hf⟩

theorem switchExecute_breakInv (node : FlowNode) (ctx : Ctx)
    (logs : List LogEntry) (hinv : ctxBreakInv ctx) :
    ctxBreakInv (switchExecute node ctx logs).2.1 ∧
    (breakFlagSet ctx.vars = true →
      breakFlagSet (switchExecute node ctx logs).2.1.vars = true) :=
  ⟨fun h => hinv (hasBreak_setResult_imp ctx.nodeResults node.id _ (by rfl) h),
   fun hf => hf⟩

theorem agentMemoryExecute_breakInv (node : FlowNode) (ctx : Ctx)
    (logs : List LogEntry) (hinv : ctxBreakInv ctx) :
    ctxBreakInv (agentMemoryExecute node ctx logs).2.1 ∧
    (breakFlagSet ctx.vars = true →
      breakFlagSet (agentMemoryExecute node ctx logs).2.1.vars = true) := by
  have hv : breakFlagSet (agentMemoryExecute node ctx logs).2.1.vars =
      breakFlagSet ctx.vars := by
    show breakFlagSet (alSet _ "__agentMemory__" _) = _
    rw [breakFlagSet_alSet_ne _ "__agentMemory__" _ (by decide)]
    split
    · rw [breakFlagSet_alSet_ne _ "__agentMemory__" _ (by decide)]
    · rfl
  exact ⟨fun h => hv.trans
    (hinv (hasBreak_setResult_imp ctx.nodeResults node.id _ (by rfl) h)),
   fun hf => hv.trans hf⟩

theorem agentToolsExecute_breakInv (node : FlowNode) (ctx : Ctx)
    (logs : List LogEntry) (hinv : ctxBreakInv ctx) :
    ctxBreakInv (agentToolsExecute node ctx logs).2.1 ∧
    (breakFlagSet ctx.vars = true →
      breakFlagSet (agentToolsExecute node ctx logs).2.1.vars = true) := by
  have hv : breakFlagSet (agentToolsExecute node ctx logs).2.1.vars =
      breakFlagSet ctx.vars := by
    show breakFlagSet (alSet _ "__agentTools__" _) = _
    rw [breakFlagSet_alSet_ne _ "__agentTools__" _ (by decide)]
    split
    · rw [breakFlagSet_alSet_ne _ "__agentTools__" _ (by decide)]
    · rfl
  exact ⟨fun h => hv.trans
    (hinv (hasBreak_setResult_imp ctx.nodeResults node.id _ (by rfl) h)),
   fun hf => hv.trans hf⟩

theorem tryCatchExecute_breakInv (node : FlowNode) (ctx : Ctx)
    (logs : List LogEntry) (hinv : ctxBreakInv ctx) :
    ctxBreakInv (tryCatchExecute node ctx logs).2.1 ∧
    (breakFlagSet ctx.vars = true →
      breakFlagSet (tryCatchExecute node ctx logs).2.1.vars = true) := by
  simp only [tryCatchExecute]
  split
  · exact ⟨fun h =>
      hinv (hasBreak_setResult_imp ctx.nodeResults node.id _ (by rfl) h),
     fun hf => hf⟩
  · split
    · exact ⟨fun h =>
        hinv (hasBreak_setResult_imp ctx.nodeResults node.id _ (by rfl) h),
       fun hf => hf⟩
    · split
      · exact ⟨fun h =>
          hinv (hasBreak_setResult_imp ctx.nodeResults node.id _ (by rfl) h),
         fun hf => hf⟩
      · exact ⟨fun h =>
          hinv (hasBreak_setResult_imp ctx.nodeResults node.id _ (by rfl) h),
         fun hf => hf⟩

theorem loopVArr_breakInv (total : Nat) (items : List Value)
    (st0 : Ctx × List LogEntry × Nat) (ctx0 : Ctx)
    (hres : st0.1.nodeResults = ctx0.nodeResults)
    (hvars : breakFlagSet st0.1.vars = breakFlagSet ctx0.vars)
    (hinv : ctxBreakInv ctx0) :
    ctxBreakInv { (items.foldl (loopIterStep total) st0).1 with
        loopStack := (items.foldl (loopIterStep total) st0).1.loopStack.tail,
        vars := alDel (alDel (items.foldl (loopIterStep total) st0).1.vars
          "__loop_index") "__loop_item" } ∧
    (breakFlagSet ctx0.vars = true →
      breakFlagSet (alDel (alDel
        (items.foldl (loopIterStep total) st0).1.vars
        "__loop_index") "__loop_item") = true) := by
  have h1 := (loopIterFold_parts total items st0).1
  have h2 := (loopIterFold_parts total items st0).2
  have hv : breakFlagSet (alDel (alDel
      (items.foldl (loopIterStep total) st0).1.vars
      "__loop_index") "__loop_item") = breakFlagSet ctx0.vars := by
    rw [breakFlagSet_alDel_ne _ _ (by decide),
        breakFlagSet_alDel_ne _ _ (by decide), h2, hvars]
  constructor
  · intro h
    have hh : hasBreakResult
        (items.foldl (loopIterStep total) st0).1.nodeResults = true := h
    rw [h1, hres] at hh
    show breakFlagSet (alDel (alDel
      (items.foldl (loopIterStep total) st0).1.vars
      "__loop_index") "__loop_item") = true
    rw [hv]
    exact hinv hh
  · intro hf
    rw [hv]
    exact hf

theorem loopExecute_breakInv (node : FlowNode) (ctx : Ctx)
    (logs : List LogEntry) (hinv : ctxBreakInv ctx) :
    ctxBreakInv (loopExecute node ctx logs).2.1 ∧
    (breakFlagSet ctx.vars = true →
      breakFlagSet (loopExecute node ctx logs).2.1.vars = true) := by
  simp only [loopExecute]
  split
  · exact ⟨hinv, fun hf => hf⟩
  · split
    · exact loopVArr_breakInv _ _ _ ctx (by rfl) (by rfl) hinv
    · exact ⟨hinv, fun hf => hf⟩

theorem breakLoopExecute_breakInv (node : FlowNode) (ctx : Ctx)
    (logs : List LogEntry) :
    breakFlagSet (breakLoopExecute node ctx logs).2.1.vars = true := by
  show breakFlagSet (alSet ctx.vars "__break_loop__" (.vBool true)) = true
  exact breakFlagSet_alSet_self ctx.vars

theorem shadowFree_parts (n : FlowNode) (h : shadowFree n = true) :
    dataShadowFree n.data = true ∧ shadowFreeList n.blocks = true := by
  obtain ⟨i, t, d, blocks⟩ := n
  simpa [shadowFree, FlowNode.data, FlowNode.blocks, Bool.and_eq_true] using h

theorem getExecutor_breakInv (t : String) (ex : ExecutorFn)
    (hex : getExecutor t = some ex) (node : FlowNode) (ctx : Ctx)
    (logs : List LogEntry) (hsf : dataShadowFree node.data = true)
    (hinv : ctxBreakInv ctx) :
    ctxBreakInv (ex node ctx logs).2.1 ∧
    (breakFlagSet ctx.vars = true →
      breakFlagSet (ex node ctx logs).2.1.vars = true) ∧
    (∀ msg, (ex node ctx logs).1 = Except.error msg →
      (t == "breakLoop") = false) := by
  by_cases h1 : t = "start"
  · subst h1
    simp [getExecutor] at hex
    subst hex
    obtain ⟨a, b⟩ := startExecute_breakInv node ctx logs hsf hinv
    exact ⟨a, b, fun _ _ => by decide⟩
  by_cases h2 : t = "end"
  · subst h2
    simp [getExecutor] at hex
    subst hex
    obtain ⟨a, b⟩ := endExecute_breakInv node ctx logs hinv
    exact ⟨a, b, fun _ _ => by decide⟩
  by_cases h3 : t = "llm"
  · subst h3
    simp [getExecutor] at hex
    subst hex
    obtain ⟨a, b⟩ := llmExecute_breakInv node ctx logs hinv
    exact ⟨a, b, fun _ _ => by decide⟩
  by_cases h4 : t = "action"
  · subst h4
    simp [getExecutor] at hex
    subst hex
    obtain ⟨a, b⟩ := actionExecute_breakInv node ctx logs hinv
    exact ⟨a, b, fun _ _ => by decide⟩
  by_cases h5 : t = "agent"
  · subst h5
    simp [getExecutor] at hex
    subst hex
    obtain ⟨a, b⟩ := agentExecute_breakInv node ctx logs hinv
    exact ⟨a, b, fun _ _ => by decide⟩
  by_cases h6 : t = "agentLLM"
  · subst h6
    simp [getExecutor] at hex
    subst hex
    obtain ⟨a, b⟩ := agentLLMExecute_breakInv node ctx logs hinv
    exact ⟨a, b, fun _ _ => by decide⟩
  by_cases h7 : t = "agentMemory"
  · subst h7
    simp [getExecutor] at hex
    subst hex
    obtain ⟨a, b⟩ := agentMemoryExecute_breakInv node ctx logs hinv
    exact ⟨a, b, fun _ _ => by decide⟩
  by_cases h8 : t = "agentTools"
  · subst h8
    simp [getExecutor] at hex
    subst hex
    obtain ⟨a, b⟩ := agentToolsExecute_breakInv node ctx logs hinv
    exact ⟨a, b, fun _ _ => by decide⟩
  by_cases h9 : t = "memory"
  · subst h9
    simp [getExecutor] at hex
    subst hex
    obtain ⟨a, b⟩ := memoryExecute_breakInv node ctx logs hinv
    exact ⟨a, b, fun _ _ => by decide⟩
  by_cases h10 : t = "tool"
  · subst h10
    simp [getExecutor] at hex
    subst hex
    obtain ⟨a, b⟩ := toolExecute_breakInv node ctx logs hinv
    exact ⟨a, b, fun _ _ => by decide⟩
  by_cases h11 : t = "if"
  · subst h11
    simp [getExecutor] at hex
    subst hex
    obtain ⟨a, b⟩ := ifExecute_breakInv node ctx logs hinv
    exact ⟨a, b, fun _ _ => by decide⟩
  by_cases h12 : t = "loop"
  · subst h12
    simp [getExecutor] at hex
    subst hex
    obtain ⟨a, b⟩ := loopExecute_breakInv node ctx logs hinv
    exact ⟨a, b, fun _ _ => by decide⟩
  by_cases h13 : t = "switch"
  · subst h13
    simp [getExecutor] at hex
    subst hex
    obtain ⟨a, b⟩ := switchExecute_breakInv node ctx logs hinv
    exact ⟨a, b, fun _ _ => by decide⟩
  by_cases h14 : t = "tryCatch"
  · subst h14
    simp [getExecutor] at hex
    subst hex
    obtain ⟨a, b⟩ := tryCatchExecute_breakInv node ctx logs hinv
    exact ⟨a, b, fun _ _ => by decide⟩
  by_cases h15 : t = "case"
  · subst h15
    simp [getExecutor] at hex
    subst hex
    obtain ⟨a, b⟩ := caseExecute_breakInv node ctx logs hinv
    exact ⟨a, b, fun _ _ => by decide⟩
  by_cases h16 : t = "caseDefault"
  · subst h16
    simp [getExecutor] at hex
    subst hex
    obtain ⟨a, b⟩ := caseDefaultExecute_breakInv node ctx logs hinv
    exact ⟨a, b, fun _ _ => by decide⟩
  by_cases h17 : t = "ifBlock"
  · subst h17
    simp [getExecutor] at hex
    subst hex
    obtain ⟨a, b⟩ := ifBlockExecute_breakInv node ctx logs hinv
    exact ⟨a, b, fun _ _ => by decide⟩
  by_cases h18 : t = "tryBlock"
  · subst h18
    simp [getExecutor] at hex
    subst hex
    obtain ⟨a, b⟩ := tryBlockExecute_breakInv node ctx logs hinv
    exact ⟨a, b, fun _ _ => by decide⟩
  by_cases h19 : t = "catchBlock"
  · subst h19
    simp [getExecutor] at hex
    subst hex
    obtain ⟨a, b⟩ := catchBlockExecute_breakInv node ctx logs hinv
    exact ⟨a, b, fun _ _ => by decide⟩
  by_cases h20 : t = "breakLoop"
  · subst h20
    simp [getExecutor] at hex
    subst hex
    have hb := breakLoopExecute_breakInv node ctx logs
    refine ⟨fun _ => hb, fun _ => hb, fun msg hmsg => ?_⟩
    simp [breakLoopExecute] at hmsg
  simp [getExecutor, h1, h2, h3, h4, h5, h6, h7, h8, h9, h10, h11, h12,
    h13, h14, h15, h16, h17, h18, h19, h20] at hex

theorem execChildrenFold_breakInv (exec : EngineExec)
    (hexec : ∀ (child : FlowNode) (c : Ctx) (l : List LogEntry),
      shadowFree child = true → ctxBreakInv c →
      ctxBreakInv (exec child c l).2.1 ∧
      (breakFlagSet c.vars = true →
        breakFlagSet (exec child c l).2.1.vars = true))
    (blocks : List FlowNode) :
    ∀ (st : Ctx × List LogEntry), shadowFreeList blocks = true →
      ctxBreakInv st.1 →
      ctxBreakInv (execChildrenFold exec blocks st).1 ∧
      (breakFlagSet st.1.vars = true →
        breakFlagSet (execChildrenFold exec blocks st).1.vars = true) := by
  induction blocks with
  | nil => exact fun st _ hinv => ⟨hinv, fun hf => hf⟩
  | cons b rest ih =>
    intro st hsf hinv
    simp only [shadowFreeList, Bool.and_eq_true] at hsf
    have hb := hexec b st.1 st.2 hsf.1 hinv
    have hrec := ih ((exec b st.1 st.2).2.1, (exec b st.1 st.2).2.2)
      hsf.2 hb.1
    exact ⟨hrec.1, fun hf => hrec.2 (hb.2 hf)⟩

theorem executeNodeStepV2_breakInv (exec : EngineExec)
    (hexec : ∀ (child : FlowNode) (c : Ctx) (l : List LogEntry),
      shadowFree child = true → ctxBreakInv c →
      ctxBreakInv (exec child c l).2.1 ∧
      (breakFlagSet c.vars = true →
        breakFlagSet (exec child c l).2.1.vars = true))
    (node : FlowNode) (ctx : Ctx) (logs : List LogEntry)
    (hsf : shadowFree node = true) (hinv : ctxBreakInv ctx) :
    ctxBreakInv (executeNodeStepV2 exec node ctx logs).2.1 ∧
    (breakFlagSet ctx.vars = true →
      breakFlagSet (executeNodeStepV2 exec node ctx logs).2.1.vars = true) := by
  simp only [executeNodeStepV2]
  split
  · rename_i hge
    have ht : (node.ntype == "breakLoop") = false := by
      by_cases hb : node.ntype = "breakLoop"
      · rw [hb] at hge
        simp [getExecutor] at hge
      · exact beq_eq_false_iff_ne.mpr hb
    constructor
    · intro h
      exact hinv (hasBreak_setResult_imp ctx.nodeResults node.id _
        (by exact ht) h)
    · exact fun hf => hf
  · rename_i ex hge
    have hmain := getExecutor_breakInv node.ntype ex hge node
      { ctx with currentNode := some node.id }
      (pushLog logs "info" ("执行节点: " ++ node.ntype))
      (shadowFree_parts node hsf).1 hinv
    obtain ⟨hInv2, hFlag2, hErr⟩ := hmain
    split
    · rename_i msg ctx2 logs2 hcall
      have ht : (node.ntype == "breakLoop") = false :=
        hErr msg (by rw [hcall])
      rw [hcall] at hInv2 hFlag2
      constructor
      · intro h
        exact hInv2 (hasBreak_setResult_imp ctx2.nodeResults node.id _
          (by exact ht) h)
      · exact fun hf => hFlag2 hf
    · rename_i result ctx2 logs2 hcall
      rw [hcall] at hInv2 hFlag2
      have hfold := execChildrenFold_breakInv exec hexec node.blocks
        (ctx2, logs2) (shadowFree_parts node hsf).2 hInv2
      exact ⟨hfold.1, fun hf => hfold.2 (hFlag2 hf)⟩

theorem executeNodeV2_breakInv (fuel : Nat) :
    ∀ (node : FlowNode) (ctx : Ctx) (logs : List LogEntry),
      shadowFree node = true → ctxBreakInv ctx →
      ctxBreakInv (executeNodeV2 fuel node ctx logs).2.1 ∧
      (breakFlagSet ctx.vars = true →
        breakFlagSet (executeNodeV2 fuel node ctx logs).2.1.vars = true) := by
  induction fuel with
  | zero => exact fun node ctx logs _ hinv => ⟨hinv, fun hf => hf⟩
  | succ fuel ih =>
    intro node ctx logs hsf hinv
    exact executeNodeStepV2_breakInv (executeNodeV2 fuel)
      (fun child c l hc hi => ih child c l hc hi) node ctx logs hsf hinv

/-- C10: the reserved flag `__break_loop__` leaks past the loop scope.
(a) The `breakLoop` executor sets the flag to `true` in the shared
variable mapping.  (b) No operation of the registry engine ever clears or
removes it: once set, it survives any node execution at any recursion
depth — provided the document itself does not declare an output property
with the reserved name, the only channel (via the `start` executor's
default seeding) by which a document could overwrite it.  (c) Hence after
any `executeFlow` run whose results include a `breakLoop` execution, the
flag is present with value `true` in the returned `finalVariables`
snapshot. -/
theorem c10_break_flag_leak :
    (∀ (node : FlowNode) (ctx : Ctx) (logs : List LogEntry),
      breakFlagSet (breakLoopExecute node ctx logs).2.1.vars = true) ∧
    (∀ (fuel : Nat) (node : FlowNode) (ctx : Ctx) (logs : List LogEntry),
      shadowFree node = true → breakFlagSet ctx.vars = true →
      breakFlagSet (executeNodeV2 fuel node ctx logs).2.1.vars = true) ∧
    (∀ (fuel : Nat) (doc : FlowDocument) (inputData : Dict),
      shadowFreeList doc.nodes = true →
      hasBreakResult (executeFlowV2 fuel doc inputData).results = true →
      breakFlagSet (executeFlowV2 fuel doc inputData).finalVariables =
        true) := by
  refine ⟨fun node ctx logs => breakLoopExecute_breakInv node ctx logs,
    ?_, ?_⟩
  · intro fuel node ctx logs hsf hflag
    exact (executeNodeV2_breakInv fuel node ctx logs hsf
      (fun _ => hflag)).2 hflag
  · intro fuel doc inputData hsf hbr
    by_cases hse : (findStartNodes doc.nodes).isEmpty = true
    · exfalso
      simp [executeFlowV2, hse, hasBreakResult] at hbr
    · have hfold := execChildrenFold_breakInv (executeNodeV2 fuel)
        (fun child c l hc hi => executeNodeV2_breakInv fuel child c l hc hi)
        (findStartNodes doc.nodes)
        ({ vars := dictMerge doc.vars inputData },
         pushLog (pushLog [] "info" "流程开始执行") "info"
           ("找到 " ++ toString (findStartNodes doc.nodes).length ++
             " 个起始节点"))
        (shadowFreeList_filter doc.nodes _ hsf)
        (fun habs => by simp [hasBreakResult] at habs)
      simp only [executeFlowV2] at hbr ⊢
      rw [if_neg hse] at hbr ⊢
      exact hfold.1 hbr

/-- Witness for C10: on the document with a `start` node whose child is a
`breakLoop` node, the run records the `breakLoop` result and the returned
final variables contain `__break_loop__ = true`. -/
theorem c10_break_flag_leak_witness :
    shadowFreeList c10Doc.nodes = true ∧
    hasBreakResult (executeFlowV2 3 c10Doc []).results = true ∧
    breakFlagSet (executeFlowV2 3 c10Doc []).finalVariables = true :=
  ⟨rfl, rfl, c10_break_flag_leak.2.2 3 c10Doc [] rfl rfl⟩

end FlowTune
